import Mathlib

/-
Verification of the GridCentric nova extension's lifecycle engine
(gridcentric/nova/api.py and gridcentric/nova/extension/manager.py).

The embedding models the instance database as a list of records, instance
metadata as an association list from string keys to Python-style values
(strings, ints, bools, as the source stores them in the in-memory dicts),
and each operation of the API / manager layer as a pure function from the
database (plus, for the manager, the in-process migration tables) to a new
database together with the emitted RPC casts.  Fallible operations return
`Except`/`Option`; external collaborators (the hypervisor driver `vms_conn`,
quota checks, remote RPC outcomes) are oracle parameters, as the spec treats
them as abstract capabilities.  Record fields not referenced by any lifecycle
rule (reservation ids, key data, timestamps, ...) are elided.
-/

/-- Values stored in an instance metadata dict.  The source stores strings
(`'launched_from': '%s' % uuid`), Python ints (`metadata['last_clone_num'] =
clone_num`) and booleans (`metadata['blessed'] = True`). -/
inductive MVal where
  | str (v : String)
  | int (v : Int)
  | boolean (v : Bool)
deriving DecidableEq, Repr

/-- Instance metadata: an association list of string keys to values. -/
abbrev Metadata := List (String × MVal)

/-- Metadata lookup (`metadata.get(k)` / `metadata[k]`). -/
def mget (md : Metadata) (k : String) : Option MVal :=
  (md.find? (fun p => p.1 == k)).map (·.2)

/-- Key-membership test (`k in metadata`). -/
def mhas (md : Metadata) (k : String) : Bool :=
  (mget md k).isSome

/-- Metadata write (`metadata[k] = v`): update in place, or append. -/
def mset (md : Metadata) (k : String) (v : MVal) : Metadata :=
  if mhas md k then md.map (fun p => if p.1 == k then (k, v) else p)
  else md ++ [(k, v)]

/-- Metadata delete (`del metadata[k]`). -/
def mdel (md : Metadata) (k : String) : Metadata :=
  md.filter (fun p => p.1 != k)

/-- `int(v)` applied to a metadata value (Python semantics on the values the
code stores: ints pass through, strings are parsed, booleans become 0/1;
`none` models a raised `ValueError`). -/
def pyIntOf : MVal → Option Int
  | .int n => some n
  | .str v => v.toInt?
  | .boolean b => some (if b then 1 else 0)

/- Constants of nova.compute.vm_states used by the extension. -/

def ACTIVE : String := "active"
def BUILDING : String := "building"
def MIGRATING : String := "migrating"
def VMERROR : String := "error"
def VMDELETED : String := "deleted"

/-- The attribute table of the `nova.compute.vm_states` module: reading an
attribute that is not in the table raises `AttributeError`. -/
def vmStatesAttrs : List (String × String) :=
  [("ACTIVE", ACTIVE), ("BUILDING", BUILDING), ("REBUILDING", "rebuilding"),
   ("PAUSED", "paused"), ("SUSPENDED", "suspended"), ("RESCUED", "rescued"),
   ("DELETED", VMDELETED), ("STOPPED", "stopped"), ("SOFT_DELETE", "soft-delete"),
   ("MIGRATING", MIGRATING), ("RESIZING", "resizing"), ("ERROR", VMERROR)]

/-- Attribute read on the `vm_states` module. -/
def vmStatesAttr (a : String) : Option String :=
  (vmStatesAttrs.find? (fun p => p.1 == a)).map (·.2)

/-- An instance record: the subset of the nova instance row read or written
by the extension's lifecycle rules. -/
structure Instance where
  uuid : String
  vm_state : String
  task_state : Option String
  host : Option String
  metadata : Metadata
  instance_type_id : Nat
  memory_mb : Nat
  vcpus : Nat
  root_gb : Nat
  ephemeral_gb : Nat
  display_name : String
  display_description : String
  availability_zone : String
  os_type : String
  deleted : Bool
deriving DecidableEq, Repr

/-- The instance table. -/
abbrev DB := List Instance

/-- `db.instance_get_by_uuid` (`none` models a raised `InstanceNotFound`). -/
def dbGet (db : DB) (u : String) : Option Instance :=
  db.find? (fun i => i.uuid == u)

/-- `db.instance_update` restricted to the instance with uuid `u`. -/
def dbUpd (db : DB) (u : String) (f : Instance → Instance) : DB :=
  db.map (fun i => if i.uuid == u then f i else i)

/-- An RPC cast emitted by the API layer (`_cast_gridcentric_message` /
`rpc.cast`): method name, target instance uuid, resolved host, extra args. -/
structure CastMsg where
  method : String
  uuid : String
  host : Option String
  params : List (String × String)
deriving DecidableEq, Repr

/-- `API._copy_instance`: clone the resource/shape attributes of `i` into a
fresh record tagged `launched_from` (when `lnch`) or `blessed_from`, in state
BUILDING with no host assigned. -/
def copy_instance (i : Instance) (newUuid : String) (suffix : String)
    (lnch : Bool) : Instance :=
  { uuid := newUuid,
    vm_state := BUILDING,
    task_state := none,
    host := none,
    metadata := if lnch then [("launched_from", .str i.uuid)]
                else [("blessed_from", .str i.uuid)],
    instance_type_id := i.instance_type_id,
    memory_mb := i.memory_mb,
    vcpus := i.vcpus,
    root_gb := i.root_gb,
    ephemeral_gb := i.ephemeral_gb,
    display_name := i.display_name ++ "-" ++ suffix,
    display_description := i.display_description,
    availability_zone := i.availability_zone,
    os_type := i.os_type,
    deleted := false }

/-- `API._next_clone_num`: `int(metadata.get('last_clone_num', -1)) + 1`,
persisted back; returns the allocated number and the updated metadata
(`none` models the `ValueError` of `int()` on an unparsable stored value). -/
def next_clone_num (md : Metadata) : Option (Int × Metadata) :=
  let cur : Option Int :=
    match mget md "last_clone_num" with
    | none => some (-1)
    | some v => pyIntOf v
  cur.map (fun n => (n + 1, mset md "last_clone_num" (.int (n + 1))))

/-- `API.bless_instance`: reject an already-blessed (metadata carries
`blessed_from`), launched (`launched_from`), or non-ACTIVE instance; else
allocate a clone number on the source, create the clone record and cast
`bless_instance` to the source's host.  Returns the new database, the casts
and the returned (new) record. -/
def api_bless_instance (db : DB) (u : String) (newUuid : String) :
    Except String (DB × List CastMsg × Instance) :=
  match dbGet db u with
  | none => .error "InstanceNotFound"
  | some i =>
    if mhas i.metadata "blessed_from" then
      .error "Instance is already blessed. Cannot rebless an instance."
    else if mhas i.metadata "launched_from" then
      .error "Instance has been launched. Cannot bless a launched instance."
    else if i.vm_state != ACTIVE then
      .error "Instance is not active. Cannot bless a non-active instance."
    else
      match next_clone_num i.metadata with
      | none => .error "ValueError"
      | some (n, md2) =>
        let db1 := dbUpd db u (fun j => { j with metadata := md2 })
        let newInst := copy_instance i newUuid (toString n) false
        .ok (db1 ++ [newInst],
             [⟨"bless_instance", newUuid, i.host, []⟩],
             newInst)

/-- `API.list_launched_instances`: the non-deleted instances whose
`launched_from` tag references `u`. -/
def list_launched_instances (db : DB) (u : String) : List Instance :=
  db.filter (fun j => !j.deleted && (mget j.metadata "launched_from" == some (.str u)))

/-- `API.discard_instance`: reject a non-blessed instance, reject while any
non-deleted launched instance still references it, else cast
`discard_instance` to the instance's host.  The API layer itself mutates
nothing: the database is returned unchanged on the success path. -/
def api_discard_instance (db : DB) (u : String) :
    Except String (DB × List CastMsg) :=
  match dbGet db u with
  | none => .error "InstanceNotFound"
  | some i =>
    if !(mhas i.metadata "blessed_from") then
      .error "Instance is not blessed. Cannot discard an non-blessed instance."
    else if 0 < (list_launched_instances db u).length then
      .error "Instance still has launched instances. Cannot discard."
    else
      .ok (db, [⟨"discard_instance", u, i.host, []⟩])

/-- `API.launch_instance`: quota check, reject a non-blessed source, else
create the launched clone record (suffix "clone"), cast to the scheduler,
and return the new record as fetched at that moment. -/
def api_launch_instance (db : DB) (u : String) (newUuid : String)
    (quotaOk : Bool) : Except String (DB × List CastMsg × Instance) :=
  match dbGet db u with
  | none => .error "InstanceNotFound"
  | some i =>
    if !quotaOk then .error "QuotaError: InstanceLimitExceeded"
    else if !(mhas i.metadata "blessed_from") then
      .error "Instance is not blessed. Please bless the instance before launching from it."
    else
      let newInst := copy_instance i newUuid "clone" true
      .ok (db ++ [newInst],
           [⟨"launch_instance", newUuid, none, []⟩],
           newInst)

/-- `API._find_migration_target`.  `hosts` is the registry of hosts running
the gridcentric service; `shuffled` stands for the result of
`random.shuffle` on the candidate list (the theorems constrain it to be a
permutation of the candidates; the `[]` fallback branch is unreachable
under that constraint). -/
def find_migration_target (hosts : List String) (shuffled : List String)
    (instance_host : Option String) (dest : Option String) :
    Except String String :=
  match dest with
  | none =>
    let candidates :=
      match instance_host with
      | some h => hosts.erase h
      | none => hosts
    if candidates.isEmpty then
      .error "There are no available hosts for the migration target."
    else
      match shuffled with
      | [] => .error "There are no available hosts for the migration target."
      | h :: _ => .ok h
  | some d =>
    if !(hosts.contains d) then
      .error "Cannot migrate to host because it is not running the gridcentric service."
    else if some d == instance_host then
      .error "Unable to migrate to the same host."
    else
      .ok d

/-- `API.migrate_instance`: reject a MIGRATING or otherwise non-ACTIVE
instance, resolve the destination, then persist `vm_state=MIGRATING` and
cast `migrate_instance` (with the destination) to the instance's host. -/
def api_migrate_instance (db : DB) (u : String) (dest : Option String)
    (hosts : List String) (shuffled : List String) :
    Except String (DB × List CastMsg) :=
  match dbGet db u with
  | none => .error "InstanceNotFound"
  | some i =>
    if i.vm_state == MIGRATING then
      .error "Unable to migrate instance because it is already migrating."
    else if i.vm_state != ACTIVE then
      .error "Unable to migrate instance because it is not active"
    else
      match find_migration_target hosts shuffled i.host dest with
      | .error e => .error e
      | .ok d =>
        let db1 := dbUpd db u (fun j => { j with vm_state := MIGRATING })
        .ok (db1, [⟨"migrate_instance", u, i.host, [("dest", d)]⟩])

/-- The manager's process state: the instance table plus the in-memory
outgoing/incoming migration tables (`self.outgoing_migration`,
`self.incoming_migration`, keyed by instance id). -/
structure MState where
  db : DB
  outgoing : List String
  incoming : List String
deriving DecidableEq, Repr

/-- Id of the source instance recorded in the metadata
(`GridCentricManager._get_source_instance`, the id-extraction half). -/
def source_id (md : Metadata) : Option String :=
  match mget md "launched_from" with
  | some (.str su) => some su
  | _ =>
    match mget md "blessed_from" with
    | some (.str su) => some su
    | _ => none

/-- `GridCentricManager.bless_instance`.  `migration_url` distinguishes a
migration self-bless; `blessOk`/`blessed_files`/`connUrl` are the hypervisor
driver's outcome (`vms_conn.bless` raising, or returning the artifact list
and the memory-server url).  Returns `none` for a raised `InstanceNotFound`
(instance or recorded source missing); otherwise the new database and the
url returned to the caller (`none` after a failed bless). -/
def mgr_bless_instance (db : DB) (u : String) (migration_url : Option String)
    (blessOk : Bool) (blessed_files : List String) (connUrl : Option String) :
    Option (DB × Option String) :=
  match dbGet db u with
  | none => none
  | some i =>
    let migration := migration_url.isSome
    let srcResult : Option (Option Instance) :=
      if migration then some (some i)
      else
        match source_id i.metadata with
        | none => some none
        | some sid =>
          match dbGet db sid with
          | none => none
          | some s => some (some s)
    match srcResult with
    | none => none
    | some srcOpt =>
      if srcOpt.isNone || !blessOk then
        -- vms_conn.bless raised (or source is None and `.name` raised):
        -- mark the record ERROR and return None.
        some (dbUpd db u (fun j => { j with vm_state := VMERROR, task_state := none }),
              none)
      else
        let db1 :=
          if migration then db
          else dbUpd db u (fun j => { j with vm_state := "blessed", task_state := none })
        let db2 := dbUpd db1 u (fun j =>
          let md1 := mset j.metadata "images" (.str (String.intercalate "," blessed_files))
          let md2 := if migration then md1 else mset md1 "blessed" (.boolean true)
          { j with metadata := md2 })
        some (db2, connUrl)

/-- `GridCentricManager.discard_instance`.  `discardOk` is the hypervisor
driver's outcome (`vms_conn.discard`); `none` models a raised exception
(missing instance or driver failure), which leaves the database unchanged. -/
def mgr_discard_instance (db : DB) (u : String) (discardOk : Bool) :
    Option DB :=
  match dbGet db u with
  | none => none
  | some _ =>
    if !discardOk then none
    else
      let db1 := dbUpd db u (fun j =>
        { j with metadata := mset j.metadata "blessed" (.boolean false) })
      let db2 := dbUpd db1 u (fun j =>
        { j with vm_state := VMDELETED, task_state := none })
      -- db.instance_destroy: nova soft-deletes the row.
      some (dbUpd db2 u (fun j => { j with deleted := true }))

/-- `GridCentricManager._lock_migration`: under the condition variable,
refuse if the instance is not MIGRATING, if its id is already in the
outgoing table, or if the persisted `gc:migrating` tag is set; otherwise
persist the tag and insert the table entry.  `none` models a raised
`InstanceNotFound`. -/
def lock_migration (s : MState) (u : String) : Option (Bool × MState) :=
  match dbGet s.db u with
  | none => none
  | some i =>
    if i.vm_state != MIGRATING then some (false, s)
    else if s.outgoing.contains u then some (false, s)
    else if mhas i.metadata "gc:migrating" then some (false, s)
    else
      let db1 := dbUpd s.db u (fun j =>
        { j with metadata := mset j.metadata "gc:migrating" (.str "true") })
      some (true, { s with db := db1, outgoing := u :: s.outgoing })

/-- `GridCentricManager._unlock_migration`: delete the persisted
`gc:migrating` tag and the outgoing-table entry. -/
def unlock_migration (s : MState) (u : String) : Option MState :=
  (dbGet s.db u).map (fun _ =>
    { s with
      db := dbUpd s.db u (fun j => { j with metadata := mdel j.metadata "gc:migrating" }),
      outgoing := s.outgoing.erase u })

/-- Outcomes of the external steps driven by `do_migrate_instance`:
route resolution and the pre-live-migration calls before the bless
(`routeOk`), the hypervisor bless (`blessOk`, with its artifacts), the
`pre_migration` hook (`preMigOk`), the remote-launch/teardown/network
sequence inside the `try` block (`transferOk`) and the rollback sequence
in the `except` block (`rollbackOk`). -/
structure MigOutcomes where
  routeOk : Bool
  blessOk : Bool
  blessFiles : List String
  preMigOk : Bool
  transferOk : Bool
  rollbackOk : Bool
deriving DecidableEq, Repr

/-- Exceptions that can propagate out of `do_migrate_instance`. -/
inductive MigErr where
  | notFound
  | routeError
  | preMigError
  | rollbackError
deriving DecidableEq, Repr

/-- `GridCentricManager.do_migrate_instance` on host `selfHost`:
pre-checks and route resolution, migration self-bless, `pre_migration`
hook, then the remote launch / local teardown / record update inside
`try`, with the rollback path in `except`.  Returns the propagated
exception (if any) and the resulting state. -/
def do_migrate_instance (s : MState) (u : String) (dest : String)
    (selfHost : String) (o : MigOutcomes) : Option MigErr × MState :=
  match dbGet s.db u with
  | none => (some .notFound, s)
  | some _i =>
    if !o.routeOk then (some .routeError, s)
    else
      match mgr_bless_instance s.db u (some ("mcdist://" ++ selfHost))
              o.blessOk o.blessFiles (some ("mcdist://" ++ selfHost)) with
      | none => (some .notFound, s)
      | some (db1, urlOpt) =>
        let s1 := { s with db := db1 }
        match urlOpt with
        | none =>
          -- The bless failed: bless_instance already set ERROR; plain return.
          (none, s1)
        | some _url =>
          if !o.preMigOk then (some .preMigError, s1)
          else if o.transferOk then
            (none, { s1 with
                     db := dbUpd s1.db u (fun j =>
                       { j with host := some dest, task_state := none }) })
          else if o.rollbackOk then
            -- Rollback: relaunch locally (launch_instance with a migration
            -- url inserts the incoming entry, sets MIGRATING/SPAWNING and
            -- the local host), then re-point the record at this host.
            let db2 := dbUpd s1.db u (fun j =>
              { j with vm_state := MIGRATING, task_state := some "spawning",
                       host := some selfHost })
            let db3 := dbUpd db2 u (fun j =>
              { j with host := some selfHost, task_state := none })
            (none, { s1 with db := db3, incoming := u :: s1.incoming })
          else
            -- The rollback itself failed: force ERROR and re-raise.
            (some .rollbackError,
             { s1 with db := dbUpd s1.db u (fun j => { j with vm_state := VMERROR }) })

/-- The `finally` block of `GridCentricManager.migrate_instance`: release
the lock, then promote the instance back to ACTIVE if its vm_state is
still MIGRATING; the propagated exception `err` (if any) is re-raised
afterwards.  `none` models a raised `InstanceNotFound`. -/
def mgr_migrate_finally (s2 : MState) (u : String) (err : Option MigErr) :
    Option (Option MigErr × MState) :=
  match unlock_migration s2 u with
  | none => none
  | some s3 =>
    match dbGet s3.db u with
    | none => none
    | some j =>
      let s4 :=
        if j.vm_state == MIGRATING then
          { s3 with db := dbUpd s3.db u (fun k => { k with vm_state := ACTIVE }) }
        else s3
      some (err, s4)

/-- `GridCentricManager.migrate_instance`: take the migration lock (return
silently when refused), run `do_migrate_instance`, and in `finally` release
the lock and promote a still-MIGRATING instance back to ACTIVE.  `none`
models a raised `InstanceNotFound` from the db lookups. -/
def mgr_migrate_instance (s : MState) (u : String) (dest : String)
    (selfHost : String) (o : MigOutcomes) : Option (Option MigErr × MState) :=
  match lock_migration s u with
  | none => none
  | some (false, s1) => some (none, s1)
  | some (true, s1) =>
    let r := do_migrate_instance s1 u dest selfHost o
    mgr_migrate_finally r.2 u r.1

/-- `GridCentricManager._check_migration_status`: the very first statement
builds the status filter from `vm_states.MIGRATNG`, an attribute the
`vm_states` module does not define, so every call raises `AttributeError`
before reading or writing any instance (were that fixed, the next lookup,
`self.compute_api`, is an attribute `GridCentricManager` never sets). -/
def check_migration_status (_s : MState) :
    Except (String × String) MState :=
  match vmStatesAttr "MIGRATNG" with
  | none => .error ("AttributeError", "MIGRATNG")
  | some _migrating => .error ("AttributeError", "compute_api")

/-- `GridCentricManager.periodic_tasks` (the migration-status half): runs
`_check_migration_status` under the condition variable; an exception
propagates after the lock is released. -/
def periodic_migration_check (s : MState) : Except (String × String) MState :=
  check_migration_status s

/-- Decimal value of a digit string (`long(m.group(1))`). -/
def digitsVal (cs : List Char) : Nat :=
  cs.foldl (fun a c => a * 10 + (c.toNat - 48)) 0

/-- `\d+`: a nonempty, all-digit character list. -/
def isDigits (cs : List Char) : Bool :=
  !cs.isEmpty && cs.all (fun c => c.isDigit)

/-- Strip a literal suffix: `some body` when `cs = body ++ suf`. -/
def stripSuffix (cs suf : List Char) : Option (List Char) :=
  if suf.length ≤ cs.length then
    if cs.drop (cs.length - suf.length) == suf then
      some (cs.take (cs.length - suf.length))
    else none
  else none

/-- One regex pattern of `memory_string_to_pages`: digits followed by the
given literal suffix, paired with its shift. -/
def tryPattern (cs suf : List Char) (shift : Nat) : Option (Nat × Nat) :=
  match stripSuffix cs suf with
  | none => none
  | some body => if isDigits body then some (digitsVal body, shift) else none

/-- The pattern dictionary of `memory_string_to_pages`; the patterns are
pairwise disjoint, so the Python dict's iteration order is immaterial. -/
def memMatch (cs : List Char) : Option (Nat × Nat) :=
  (tryPattern cs ['t', 'b'] 40) <|>
  (tryPattern cs ['g', 'b'] 30) <|>
  (tryPattern cs ['m', 'b'] 20) <|>
  (tryPattern cs ['k', 'b'] 10) <|>
  (tryPattern cs ['b'] 0) <|>
  (tryPattern cs [] 0)

/-- `memory_string_to_pages`: lower-case the string (per-character ASCII
lowering, as the inputs of interest are ASCII), match one of the six
patterns, and return `max(1, (value << shift) >> 12)` pages; `none` models
the raised `ValueError`. -/
def memory_string_to_pages (mem : String) : Option Nat :=
  (memMatch (mem.toList.map Char.toLower)).map
    (fun p => max 1 ((p.1 <<< p.2) >>> 12))

/-- The target-handling prologue of `GridCentricManager.launch_instance`:
`params.get("target", "0")`; a non-"0" target is converted to pages, and a
`ValueError` is logged and defaulted to "0" rather than failing. -/
def compute_launch_target (params_target : Option String) : String :=
  let target := params_target.getD "0"
  if target != "0" then
    match memory_string_to_pages target with
    | some p => toString p
    | none => "0"
  else "0"

/-- The suffixes accepted by `memory_string_to_pages` (lower-cased form)
with their shifts. -/
def suffixTable : List (List Char × Nat) :=
  [([], 0), (['b'], 0), (['k', 'b'], 10), (['m', 'b'], 20),
   (['g', 'b'], 30), (['t', 'b'], 40)]

/-- A successful ordinary bless end to end: the API call followed by the
manager's `bless_instance` on the new record (hypervisor bless succeeding
with artifacts `files`); `none` if either stage rejects or fails. -/
def full_bless (db : DB) (u newUuid : String) (files : List String) :
    Option DB :=
  match api_bless_instance db u newUuid with
  | .error _ => none
  | .ok (db1, _casts, newInst) =>
    (mgr_bless_instance db1 newInst.uuid none true files none).map (·.1)

/-- A discard end to end: the API call followed by the manager's
`discard_instance` (hypervisor discard succeeding). -/
def full_discard (db : DB) (u : String) : Option DB :=
  match api_discard_instance db u with
  | .error _ => none
  | .ok (db1, _casts) => mgr_discard_instance db1 u true

/- Concrete fixtures used to evaluate the operations at specific inputs. -/

/-- A plain ACTIVE instance with empty metadata. -/
def instActive : Instance :=
  { uuid := "i-1", vm_state := ACTIVE, task_state := none, host := some "h1",
    metadata := [], instance_type_id := 7, memory_mb := 512, vcpus := 2,
    root_gb := 10, ephemeral_gb := 1, display_name := "vm",
    display_description := "d", availability_zone := "az", os_type := "linux",
    deleted := false }

/-- An ACTIVE instance carrying only the `blessed=true` flag (no
`blessed_from`, no `launched_from`). -/
def instBlessedFlagOnly : Instance :=
  { instActive with uuid := "i-2", metadata := [("blessed", .boolean true)] }

/-- An instance carrying a `launched_from` tag. -/
def instLaunchedTag : Instance :=
  { instActive with uuid := "i-9", metadata := [("launched_from", .str "i-0")] }

/-- A blessed template record (as the manager leaves it after a successful
bless of `i-0`). -/
def instTemplate : Instance :=
  { instActive with
    uuid := "t-1", vm_state := "blessed",
    metadata := [("blessed_from", .str "i-0"), ("images", .str "f1"),
                 ("blessed", .boolean true)] }

/-- A launched child of `instTemplate`. -/
def instChild : Instance :=
  { instActive with uuid := "c-1", metadata := [("launched_from", .str "t-1")] }

/-- A MIGRATING instance on host `h1` with no migration tag. -/
def instMigrating : Instance :=
  { instActive with uuid := "m-1", vm_state := MIGRATING, host := some "h1" }

/-- A manager state holding only `instMigrating`, with empty tables. -/
def mstateMigrating : MState :=
  { db := [instMigrating], outgoing := [], incoming := [] }

/-- Migration outcomes where the hypervisor bless fails and everything else
(including the rollback, which is never reached) would succeed. -/
def outcomesBlessFail : MigOutcomes :=
  { routeOk := true, blessOk := false, blessFiles := [], preMigOk := true,
    transferOk := true, rollbackOk := true }

/-- Migration outcomes where the remote transfer fails and the rollback
succeeds. -/
def outcomesRollback : MigOutcomes :=
  { routeOk := true, blessOk := true, blessFiles := ["f1"], preMigOk := true,
    transferOk := false, rollbackOk := true }

theorem mget_cons (p : String × MVal) (t : Metadata) (k : String) :
    mget (p :: t) k = if p.1 = k then some p.2 else mget t k := by
  by_cases h : p.1 = k
  · simp [mget, List.find?_cons_of_pos, h]
  · simp [mget, h, List.find?_cons_of_neg, (by simpa using h : ¬(p.1 == k) = true)]

theorem mget_map_set (md : Metadata) (k : String) (v : MVal)
    (h : mhas md k = true) :
    mget (md.map (fun p => if p.1 == k then (k, v) else p)) k = some v := by
  induction md with
  | nil => simp [mhas, mget] at h
  | cons p t ih =>
    by_cases hp : p.1 = k
    · simp [mget_cons, hp]
    · have h' : mhas t k = true := by
        simpa [mhas, mget_cons, hp] using h
      simpa [mget_cons, hp] using ih h'


theorem mget_map_set_of_ne (md : Metadata) (k : String) (v : MVal)
    (k2 : String) (h : k2 ≠ k) :
    mget (md.map (fun p => if p.1 == k then (k, v) else p)) k2 = mget md k2 := by
  induction md with
  | nil => rfl
  | cons p t ih =>
    rw [List.map_cons]
    by_cases hp : p.1 = k
    · have e : (if (p.1 == k) = true then (k, v) else p) = (k, v) := by simp [hp]
      have h1 : ¬(((k : String), v).1 = k2) := by simpa using Ne.symm h
      have h2 : ¬(p.1 = k2) := by rw [hp]; exact Ne.symm h
      rw [e, mget_cons, mget_cons, if_neg h1, if_neg h2, ih]
    · have e : (if (p.1 == k) = true then (k, v) else p) = p := by simp [hp]
      rw [e, mget_cons, mget_cons, ih]

theorem mget_mset_self (md : Metadata) (k : String) (v : MVal) :
    mget (mset md k v) k = some v := by
  by_cases h : mhas md k = true
  · have e : mset md k v = md.map (fun p => if p.1 == k then (k, v) else p) := by
      unfold mset; rw [if_pos h]
    rw [e]; exact mget_map_set md k v h
  · have e : mset md k v = md ++ [(k, v)] := by
      unfold mset; rw [if_neg h]
    have h0 : md.find? (fun p => p.1 == k) = none := by
      cases hf : md.find? (fun p => p.1 == k) with
      | none => rfl
      | some p => exact absurd (by simp [mhas, mget, hf]) h
    have h1 : ([((k : String), v)].find? (fun p => p.1 == k)) = some (k, v) := by
      simp [List.find?_cons_of_pos]
    rw [e]
    show ((md ++ [(k, v)]).find? (fun p => p.1 == k)).map (·.2) = some v
    rw [List.find?_append, h0, h1]
    rfl

theorem mget_mset_of_ne (md : Metadata) (k : String) (v : MVal) (k2 : String)
    (h : k2 ≠ k) :
    mget (mset md k v) k2 = mget md k2 := by
  by_cases hh : mhas md k = true
  · have e : mset md k v = md.map (fun p => if p.1 == k then (k, v) else p) := by
      unfold mset; rw [if_pos hh]
    rw [e]; exact mget_map_set_of_ne md k v k2 h
  · have e : mset md k v = md ++ [(k, v)] := by
      unfold mset; rw [if_neg hh]
    have h1 : ([((k : String), v)].find? (fun p => p.1 == k2)) = none := by
      have : ¬((k == k2) = true) := by simpa using Ne.symm h
      simp [List.find?_cons_of_neg, this]
    rw [e]
    show ((md ++ [(k, v)]).find? (fun p => p.1 == k2)).map (·.2) =
      (md.find? (fun p => p.1 == k2)).map (·.2)
    rw [List.find?_append, h1]
    cases md.find? (fun p => p.1 == k2) <;> rfl

theorem mhas_mset_self (md : Metadata) (k : String) (v : MVal) :
    mhas (mset md k v) k = true := by
  simp [mhas, mget_mset_self]

theorem mget_mdel_self (md : Metadata) (k : String) :
    mget (mdel md k) k = none := by
  induction md with
  | nil => rfl
  | cons p t ih =>
    by_cases hp : p.1 = k
    · have e : (p.1 != k) = false := by simp [hp]
      show mget (List.filter (fun q => q.1 != k) (p :: t)) k = none
      rw [List.filter_cons, e]
      simpa using ih
    · have e : (p.1 != k) = true := by simp [hp]
      show mget (List.filter (fun q => q.1 != k) (p :: t)) k = none
      rw [List.filter_cons, e]
      simpa [mget_cons, if_neg hp] using ih

theorem mget_mdel_of_ne (md : Metadata) (k k2 : String) (h : k2 ≠ k) :
    mget (mdel md k) k2 = mget md k2 := by
  induction md with
  | nil => rfl
  | cons p t ih =>
    by_cases hp : p.1 = k
    · have e : (p.1 != k) = false := by simp [hp]
      have h2 : ¬(p.1 = k2) := by rw [hp]; exact Ne.symm h
      show mget (List.filter (fun q => q.1 != k) (p :: t)) k2 = mget (p :: t) k2
      rw [List.filter_cons, e, mget_cons, if_neg h2]
      simpa using ih
    · have e : (p.1 != k) = true := by simp [hp]
      show mget (List.filter (fun q => q.1 != k) (p :: t)) k2 = mget (p :: t) k2
      rw [List.filter_cons, e, if_pos rfl, mget_cons, mget_cons]
      have ih2 : mget (List.filter (fun q => q.1 != k) t) k2 = mget t k2 := ih
      rw [ih2]

theorem mhas_mdel_self (md : Metadata) (k : String) :
    mhas (mdel md k) k = false := by
  simp [mhas, mget_mdel_self]

theorem dbGet_cons (i : Instance) (t : DB) (u : String) :
    dbGet (i :: t) u = if i.uuid = u then some i else dbGet t u := by
  by_cases h : i.uuid = u
  · simp [dbGet, List.find?_cons_of_pos, h]
  · simp [dbGet, h, List.find?_cons_of_neg, (by simpa using h : ¬(i.uuid == u) = true)]

theorem dbUpd_cons (i : Instance) (t : DB) (u : String) (f : Instance → Instance) :
    dbUpd (i :: t) u f = (if i.uuid = u then f i else i) :: dbUpd t u f := by
  by_cases h : i.uuid = u <;> simp [dbUpd, h]

theorem dbGet_dbUpd_self (db : DB) (u : String) (f : Instance → Instance)
    (h : ∀ i, (f i).uuid = i.uuid) :
    dbGet (dbUpd db u f) u = (dbGet db u).map f := by
  induction db with
  | nil => rfl
  | cons i t ih =>
    rw [dbUpd_cons]
    by_cases hp : i.uuid = u
    · have hf : (f i).uuid = u := by rw [h i, hp]
      rw [if_pos hp, dbGet_cons, if_pos hf, dbGet_cons, if_pos hp]
      rfl
    · have hf : ¬(i.uuid = u) := hp
      rw [if_neg hp, dbGet_cons, if_neg hf, dbGet_cons, if_neg hp, ih]

theorem dbGet_dbUpd_of_ne (db : DB) (u : String) (f : Instance → Instance)
    (v : String) (h : ∀ i, (f i).uuid = i.uuid) (hne : v ≠ u) :
    dbGet (dbUpd db u f) v = dbGet db v := by
  induction db with
  | nil => rfl
  | cons i t ih =>
    rw [dbUpd_cons]
    by_cases hp : i.uuid = u
    · have h1 : ¬((f i).uuid = v) := by rw [h i, hp]; exact Ne.symm hne
      have h2 : ¬(i.uuid = v) := by rw [hp]; exact Ne.symm hne
      rw [if_pos hp, dbGet_cons, if_neg h1, dbGet_cons, if_neg h2, ih]
    · rw [if_neg hp, dbGet_cons, dbGet_cons, ih]

theorem dbGet_append_of_none (db : DB) (l : DB) (u : String)
    (h : dbGet db u = none) :
    dbGet (db ++ l) u = dbGet l u := by
  have h0 : db.find? (fun i => i.uuid == u) = none := by
    revert h
    simp [dbGet]
  show ((db ++ l).find? (fun i => i.uuid == u)) = _
  rw [List.find?_append, h0]
  rfl

theorem dbGet_append_of_some (db : DB) (l : DB) (u : String) (i : Instance)
    (h : dbGet db u = some i) :
    dbGet (db ++ l) u = some i := by
  have h0 : db.find? (fun i => i.uuid == u) = some i := h
  show ((db ++ l).find? (fun i => i.uuid == u)) = some i
  rw [List.find?_append, h0]
  rfl

theorem dbGet_uuid (db : DB) (u : String) (i : Instance)
    (h : dbGet db u = some i) : i.uuid = u := by
  have := List.find?_some h
  simpa using this

/-- C1, counterexample: an ACTIVE instance whose metadata carries only the
flag `blessed=true` (no `blessed_from`, no `launched_from`) is NOT rejected
by the API bless operation — it proceeds to clone-record creation, because
`_is_instance_blessed` tests for `blessed_from`, not for `blessed=true`. -/
theorem c1_counterexample :
    mget instBlessedFlagOnly.metadata "blessed" = some (.boolean true) ∧
    instBlessedFlagOnly.vm_state = ACTIVE ∧
    mhas instBlessedFlagOnly.metadata "launched_from" = false ∧
    (api_bless_instance [instBlessedFlagOnly] "i-2" "i-3").isOk = true :=
  ⟨rfl, rfl, rfl, rfl⟩

/-- C1 (amended): the API bless operation rejects the request with a
synchronous error and performs no mutation (an error return carries no new
database, no casts) whenever the instance already carries a `blessed_from`
tag (the code's is-blessed test), or a `launched_from` tag, or its vm_state
is not ACTIVE; and whenever bless returns successfully the instance was
ACTIVE with neither tag, and the result is exactly the clone-record
creation: clone-number update on the source plus the appended clone record
and the single `bless_instance` cast. -/
theorem c1_bless_rejection (db : DB) (u newUuid : String) (i : Instance)
    (h : dbGet db u = some i) :
    ((mhas i.metadata "blessed_from" = true ∨ mhas i.metadata "launched_from" = true ∨
        i.vm_state ≠ ACTIVE) → (api_bless_instance db u newUuid).isOk = false) ∧
    (∀ db2 casts r, api_bless_instance db u newUuid = .ok (db2, casts, r) →
      mhas i.metadata "blessed_from" = false ∧ mhas i.metadata "launched_from" = false ∧
      i.vm_state = ACTIVE ∧
      ∃ n md2, next_clone_num i.metadata = some (n, md2) ∧
        r = copy_instance i newUuid (toString n) false ∧
        db2 = dbUpd db u (fun j => { j with metadata := md2 }) ++ [r] ∧
        casts = [⟨"bless_instance", newUuid, i.host, []⟩]) := by
  constructor
  · intro hbad
    simp only [api_bless_instance, h]
    by_cases hb : mhas i.metadata "blessed_from" = true
    · rw [if_pos hb]; rfl
    · rw [if_neg hb]
      by_cases hl : mhas i.metadata "launched_from" = true
      · rw [if_pos hl]; rfl
      · rw [if_neg hl]
        have hs : i.vm_state ≠ ACTIVE := by
          rcases hbad with hb2 | hl2 | hs2
          · exact absurd hb2 hb
          · exact absurd hl2 hl
          · exact hs2
        rw [if_pos (bne_iff_ne.mpr hs)]
        rfl
  · intro db2 casts r hok
    simp only [api_bless_instance, h] at hok
    by_cases hb : mhas i.metadata "blessed_from" = true
    · rw [if_pos hb] at hok; simp at hok
    · rw [if_neg hb] at hok
      by_cases hl : mhas i.metadata "launched_from" = true
      · rw [if_pos hl] at hok; simp at hok
      · rw [if_neg hl] at hok
        by_cases hs : (i.vm_state != ACTIVE) = true
        · rw [if_pos hs] at hok; simp at hok
        · rw [if_neg hs] at hok
          have hsa : i.vm_state = ACTIVE := by
            by_contra hne
            exact hs (bne_iff_ne.mpr hne)
          cases hnc : next_clone_num i.metadata with
          | none => rw [hnc] at hok; simp at hok
          | some p =>
            obtain ⟨n, md2⟩ := p
            rw [hnc] at hok
            simp only [Except.ok.injEq, Prod.mk.injEq] at hok
            obtain ⟨hdb, hcst, hr⟩ := hok
            exact ⟨by simpa using hb, by simpa using hl, hsa,
              n, md2, rfl, hr.symm, by rw [← hdb, ← hr], hcst.symm⟩

/-- C1 witness: the rejection branch evaluated on a launched instance. -/
theorem c1_bless_rejection_witness :
    (api_bless_instance [instLaunchedTag] "i-9" "i-10").isOk = false :=
  (c1_bless_rejection [instLaunchedTag] "i-9" "i-10" instLaunchedTag rfl).1
    (Or.inr (Or.inl rfl))

/-- C2: the API discard operation errors (returning no casts and no new
database) when the instance is not blessed (no `blessed_from` tag), errors
while at least one non-deleted instance's `launched_from` tag still
references it, and proceeds once the reference count is zero: it dispatches
the discard cast unchanged, and the manager's discard then soft-deletes the
record (deleted flag set, vm_state DELETED, blessed flag cleared). -/
theorem c2_discard_rules (db : DB) (u : String) (i : Instance)
    (h : dbGet db u = some i) :
    (mhas i.metadata "blessed_from" = false → (api_discard_instance db u).isOk = false) ∧
    (∀ j, j ∈ db → j.deleted = false → mget j.metadata "launched_from" = some (.str u) →
      (api_discard_instance db u).isOk = false) ∧
    (mhas i.metadata "blessed_from" = true → list_launched_instances db u = [] →
      api_discard_instance db u = .ok (db, [⟨"discard_instance", u, i.host, []⟩]) ∧
      ∀ db2, full_discard db u = some db2 →
        ∃ j2, dbGet db2 u = some j2 ∧ j2.deleted = true ∧ j2.vm_state = VMDELETED ∧
          mget j2.metadata "blessed" = some (.boolean false)) := by
  refine ⟨?_, ?_, ?_⟩
  · intro hb
    simp only [api_discard_instance, h]
    rw [if_pos (by simp [hb])]
    rfl
  · intro j hj hjd hjl
    have hmem : j ∈ list_launched_instances db u := by
      refine List.mem_filter.mpr ⟨hj, ?_⟩
      simp [hjd, hjl]
    have hpos : 0 < (list_launched_instances db u).length :=
      List.length_pos.mpr (List.ne_nil_of_mem hmem)
    simp only [api_discard_instance, h]
    by_cases hb : mhas i.metadata "blessed_from" = true
    · rw [if_neg (by simp [hb]), if_pos hpos]
      rfl
    · rw [if_pos (by simp at hb; simp [hb])]
      rfl
  · intro hb hnil
    have hcond : (!mhas i.metadata "blessed_from") = false := by simp [hb]
    have hlen : ¬(0 < (list_launched_instances db u).length) := by
      rw [hnil]; simp
    have hok : api_discard_instance db u = .ok (db, [⟨"discard_instance", u, i.host, []⟩]) := by
      simp only [api_discard_instance, h]
      rw [if_neg (by simp [hb]), if_neg hlen]
    refine ⟨hok, ?_⟩
    intro db2 hfd
    unfold full_discard at hfd
    rw [hok] at hfd
    simp only [mgr_discard_instance, h, Bool.not_true, Bool.false_eq_true, if_false,
      Option.some.injEq] at hfd
    subst hfd
    rw [dbGet_dbUpd_self, dbGet_dbUpd_self, dbGet_dbUpd_self, h]
    · refine ⟨_, rfl, rfl, rfl, ?_⟩
      exact mget_mset_self i.metadata "blessed" (.boolean false)
    all_goals intro j; rfl

/-- C2 witness: evaluated on a template with a live child (rejected) and,
after the child is gone, on the template alone (discard proceeds and the
record is removed). -/
theorem c2_discard_rules_witness :
    (api_discard_instance [instTemplate, instChild] "t-1").isOk = false ∧
    (∃ j2, dbGet ((full_discard [instTemplate] "t-1").getD []) "t-1" = some j2 ∧
      j2.deleted = true ∧ j2.vm_state = VMDELETED ∧
      mget j2.metadata "blessed" = some (.boolean false)) := by
  constructor
  · exact (c2_discard_rules [instTemplate, instChild] "t-1" instTemplate rfl).2.1
      instChild (by simp) rfl rfl
  · obtain ⟨-, hfull⟩ :=
      (c2_discard_rules [instTemplate] "t-1" instTemplate rfl).2.2 rfl rfl
    exact hfull _ rfl

/-- C8: launching from a blessed instance `A` creates and returns a new
record tagged `launched_from=A`, in vm_state BUILDING (not ACTIVE), with no
host assigned, with A's resource-shape attributes copied; the API returns
while the record exists in the database in state BUILDING. -/
theorem c8_launch_builds_clone (db : DB) (u newUuid : String) (i : Instance)
    (h : dbGet db u = some i) (hb : mhas i.metadata "blessed_from" = true)
    (hfresh : dbGet db newUuid = none) :
    ∃ db2 casts r,
      api_launch_instance db u newUuid true = .ok (db2, casts, r) ∧
      mget r.metadata "launched_from" = some (.str u) ∧
      r.vm_state = BUILDING ∧ r.vm_state ≠ ACTIVE ∧
      r.host = none ∧
      r.instance_type_id = i.instance_type_id ∧ r.memory_mb = i.memory_mb ∧
      r.vcpus = i.vcpus ∧ r.root_gb = i.root_gb ∧ r.ephemeral_gb = i.ephemeral_gb ∧
      r.display_description = i.display_description ∧
      r.availability_zone = i.availability_zone ∧ r.os_type = i.os_type ∧
      dbGet db2 newUuid = some r ∧ dbGet db2 u = some i := by
  have hu : i.uuid = u := dbGet_uuid db u i h
  have hok : api_launch_instance db u newUuid true =
      .ok (db ++ [copy_instance i newUuid "clone" true],
           [⟨"launch_instance", newUuid, none, []⟩],
           copy_instance i newUuid "clone" true) := by
    simp only [api_launch_instance, h]
    rw [if_neg (by simp), if_neg (by simp [hb])]
  refine ⟨_, _, _, hok, ?_, rfl, ?_, rfl, rfl, rfl, rfl, rfl, rfl, rfl, rfl, rfl,
    ?_, dbGet_append_of_some db _ u i h⟩
  · show mget [("launched_from", .str i.uuid)] "launched_from" = some (.str u)
    rw [mget_cons, if_pos rfl, hu]
  · show BUILDING ≠ ACTIVE
    decide
  · rw [dbGet_append_of_none db _ newUuid hfresh, dbGet_cons, if_pos]
    rfl

/-- C8 witness: launch from the blessed template `t-1` evaluated concretely:
the returned record is BUILDING and tagged `launched_from=t-1`. -/
theorem c8_launch_builds_clone_witness :
    ((api_launch_instance [instTemplate] "t-1" "n-1" true).map
      (fun r => (r.2.2.vm_state, mget r.2.2.metadata "launched_from"))) =
      .ok (BUILDING, some (.str "t-1")) := by
  obtain ⟨db2, casts, r, hok, hm, hbld, -⟩ :=
    c8_launch_builds_clone [instTemplate] "t-1" "n-1" instTemplate rfl rfl rfl
  rw [hok]
  simp [Except.map, hbld, hm]

/-- C9: clone-number allocation: `_next_clone_num` returns one more than the
stored `last_clone_num` (0 when the field is absent), persists the returned
value back, successive allocations are strictly increasing (the next call
returns the successor), and on a successful bless the allocated number is
the suffix of the new record's display name while the persisted counter
lands on the source's record. -/
theorem c9_clone_counter (md : Metadata) :
    (mget md "last_clone_num" = none →
      next_clone_num md = some (0, mset md "last_clone_num" (.int 0))) ∧
    (∀ m : Int, mget md "last_clone_num" = some (.int m) →
      next_clone_num md = some (m + 1, mset md "last_clone_num" (.int (m + 1)))) ∧
    (∀ c md1, next_clone_num md = some (c, md1) →
      mget md1 "last_clone_num" = some (.int c) ∧
      next_clone_num md1 = some (c + 1, mset md1 "last_clone_num" (.int (c + 1)))) ∧
    (∀ db u newUuid i c md1, dbGet db u = some i →
      mhas i.metadata "blessed_from" = false → mhas i.metadata "launched_from" = false →
      i.vm_state = ACTIVE → next_clone_num i.metadata = some (c, md1) →
      api_bless_instance db u newUuid =
        .ok (dbUpd db u (fun j => { j with metadata := md1 }) ++
               [copy_instance i newUuid (toString c) false],
             [⟨"bless_instance", newUuid, i.host, []⟩],
             copy_instance i newUuid (toString c) false) ∧
      (copy_instance i newUuid (toString c) false).display_name =
        i.display_name ++ "-" ++ toString c ∧
      dbGet (dbUpd db u (fun j => { j with metadata := md1 }) ++
               [copy_instance i newUuid (toString c) false]) u =
        some { i with metadata := md1 }) := by
  refine ⟨?_, ?_, ?_, ?_⟩
  · intro h0
    simp only [next_clone_num, h0, Option.map_some']
    norm_num
  · intro m hm
    simp [next_clone_num, hm, pyIntOf]
  · intro c md1 hnx
    have hkey : mget md1 "last_clone_num" = some (.int c) := by
      simp only [next_clone_num] at hnx
      cases hm : mget md "last_clone_num" with
      | none =>
        simp only [hm, Option.map_some'] at hnx
        simp only [Option.some.injEq, Prod.mk.injEq] at hnx
        obtain ⟨hc, hmd⟩ := hnx
        rw [← hmd, mget_mset_self, hc]
      | some v =>
        simp only [hm] at hnx
        cases hv : pyIntOf v with
        | none => rw [hv] at hnx; simp at hnx
        | some n =>
          rw [hv] at hnx
          simp only [Option.map_some', Option.some.injEq, Prod.mk.injEq] at hnx
          obtain ⟨hc, hmd⟩ := hnx
          rw [← hmd, mget_mset_self, hc]
    refine ⟨hkey, ?_⟩
    simp [next_clone_num, hkey, pyIntOf]
  · intro db u newUuid i c md1 h hb hl ha hnc
    have hok : api_bless_instance db u newUuid =
        .ok (dbUpd db u (fun j => { j with metadata := md1 }) ++
               [copy_instance i newUuid (toString c) false],
             [⟨"bless_instance", newUuid, i.host, []⟩],
             copy_instance i newUuid (toString c) false) := by
      simp only [api_bless_instance, h]
      rw [if_neg (by simp [hb]), if_neg (by simp [hl]),
          if_neg (by simp [ha]), hnc]
    refine ⟨hok, rfl, ?_⟩
    have : dbGet (dbUpd db u (fun j => { j with metadata := md1 })) u =
        some { i with metadata := md1 } := by
      rw [dbGet_dbUpd_self, h]
      · rfl
      · intro j; rfl
    exact dbGet_append_of_some _ _ _ _ this

/-- C9 witness: allocation evaluated on empty metadata: the first clone
number is 0 and it is persisted. -/
theorem c9_clone_counter_witness :
    next_clone_num [] = some (0, [("last_clone_num", .int 0)]) :=
  (c9_clone_counter []).1 rfl

theorem find_target_none_head (hosts : List String) (hsel : String)
    (rest : List String) (ih2 : String)
    (hne2 : (hosts.erase ih2).isEmpty = false) :
    find_migration_target hosts (hsel :: rest) (some ih2) none = .ok hsel := by
  simp only [find_migration_target]
  rw [if_neg (by simp [hne2])]

/-- C3: the API migrate operation accepts only an ACTIVE instance
(MIGRATING and every other non-ACTIVE state is rejected with an error and
no dispatch, the error return carrying no database update and no cast);
an explicit destination absent from the registered host set or equal to
the source host is rejected; with no destination an empty candidate set
(registered hosts minus the source) is an error, and otherwise the chosen
destination is the head of the shuffle of the candidate set — any
permutation yields a member of the candidate set, every candidate is
chosen under some permutation, and on acceptance the instance is set
MIGRATING and the cast carries the destination. -/
theorem c3_migrate_rules (db : DB) (u : String) (i : Instance)
    (hosts shuffled : List String) (dest : Option String)
    (h : dbGet db u = some i) :
    (i.vm_state ≠ ACTIVE → (api_migrate_instance db u dest hosts shuffled).isOk = false) ∧
    (∀ d, i.vm_state = ACTIVE → dest = some d →
      (hosts.contains d = false ∨ some d = i.host) →
      (api_migrate_instance db u dest hosts shuffled).isOk = false) ∧
    (∀ ih2, i.vm_state = ACTIVE → dest = none → i.host = some ih2 →
      hosts.erase ih2 = [] →
      (api_migrate_instance db u dest hosts shuffled).isOk = false) ∧
    (∀ ih2, i.vm_state = ACTIVE → dest = none → i.host = some ih2 →
      shuffled.Perm (hosts.erase ih2) → shuffled ≠ [] → hosts.Nodup →
      ∃ hsel rest, shuffled = hsel :: rest ∧ hsel ∈ hosts ∧ hsel ≠ ih2 ∧
        api_migrate_instance db u dest hosts shuffled =
          .ok (dbUpd db u (fun j => { j with vm_state := MIGRATING }),
               [⟨"migrate_instance", u, i.host, [("dest", hsel)]⟩])) ∧
    (∀ ih2 hsel, i.vm_state = ACTIVE → i.host = some ih2 →
      hsel ∈ hosts.erase ih2 →
      ∃ sh2, sh2.Perm (hosts.erase ih2) ∧
        api_migrate_instance db u none hosts sh2 =
          .ok (dbUpd db u (fun j => { j with vm_state := MIGRATING }),
               [⟨"migrate_instance", u, i.host, [("dest", hsel)]⟩])) := by
  refine ⟨?_, ?_, ?_, ?_, ?_⟩
  · intro hA
    simp only [api_migrate_instance, h]
    by_cases hm : (i.vm_state == MIGRATING) = true
    · rw [if_pos hm]; rfl
    · rw [if_neg hm, if_pos (bne_iff_ne.mpr hA)]; rfl
  · intro d hA hd hbad
    subst hd
    have hnm : ¬((i.vm_state == MIGRATING) = true) := by rw [hA]; decide
    have hna : ¬((i.vm_state != ACTIVE) = true) := by rw [hA]; decide
    have hft : (find_migration_target hosts shuffled i.host (some d)).isOk = false := by
      simp only [find_migration_target]
      rcases hbad with hc | hh
      · rw [if_pos (show (!hosts.contains d) = true by rw [hc]; rfl)]; rfl
      · by_cases hcont : hosts.contains d = true
        · rw [if_neg (show ¬((!hosts.contains d) = true) by rw [hcont]; decide),
              if_pos (show ((some d == i.host) = true) by rw [← hh]; simp)]
          rfl
        · have hcf : hosts.contains d = false := by simpa using hcont
          rw [if_pos (show (!hosts.contains d) = true by rw [hcf]; rfl)]; rfl
    simp only [api_migrate_instance, h]
    rw [if_neg hnm, if_neg hna]
    cases hf : find_migration_target hosts shuffled i.host (some d) with
    | error e => rfl
    | ok dd => rw [hf] at hft; exact Bool.noConfusion hft
  · intro ih2 hA hd hhost hempty
    subst hd
    have hnm : ¬((i.vm_state == MIGRATING) = true) := by rw [hA]; decide
    have hna : ¬((i.vm_state != ACTIVE) = true) := by rw [hA]; decide
    have hft : find_migration_target hosts shuffled i.host none =
        .error "There are no available hosts for the migration target." := by
      simp only [find_migration_target, hhost]
      rw [if_pos (by simp [hempty])]
    simp only [api_migrate_instance, h]
    rw [if_neg hnm, if_neg hna, hft]
    rfl
  · intro ih2 hA hd hhost hperm hne hnodup
    subst hd
    have hnm : ¬((i.vm_state == MIGRATING) = true) := by rw [hA]; decide
    have hna : ¬((i.vm_state != ACTIVE) = true) := by rw [hA]; decide
    cases shuffled with
    | nil => exact absurd rfl hne
    | cons hsel rest =>
      have hmem : hsel ∈ hosts.erase ih2 := hperm.mem_iff.mp (List.mem_cons_self hsel rest)
      have hmem2 : hsel ∈ hosts ∧ hsel ≠ ih2 := by
        have := (List.Nodup.mem_erase_iff hnodup).mp hmem
        exact ⟨this.2, this.1⟩
      have hne2 : (hosts.erase ih2).isEmpty = false := by
        cases he : hosts.erase ih2 with
        | nil => rw [he] at hmem; simp at hmem
        | cons a t => rfl
      have hft := find_target_none_head hosts hsel rest ih2 hne2
      refine ⟨hsel, rest, rfl, hmem2.1, hmem2.2, ?_⟩
      rw [← hhost] at hft
      simp only [api_migrate_instance, h]
      rw [if_neg hnm, if_neg hna, hft]
  · intro ih2 hsel hA hhost hmem
    have hnm : ¬((i.vm_state == MIGRATING) = true) := by rw [hA]; decide
    have hna : ¬((i.vm_state != ACTIVE) = true) := by rw [hA]; decide
    refine ⟨hsel :: (hosts.erase ih2).erase hsel, (List.perm_cons_erase hmem).symm, ?_⟩
    have hne2 : (hosts.erase ih2).isEmpty = false := by
      cases he : hosts.erase ih2 with
      | nil => rw [he] at hmem; simp at hmem
      | cons a t => rfl
    have hft := find_target_none_head hosts hsel ((hosts.erase ih2).erase hsel) ih2 hne2
    rw [← hhost] at hft
    simp only [api_migrate_instance, h]
    rw [if_neg hnm, if_neg hna, hft]

/-- C3 witness: a MIGRATING instance is rejected, evaluated concretely. -/
theorem c3_migrate_rules_witness :
    (api_migrate_instance [instMigrating] "m-1" none ["h1", "h2"] ["h2"]).isOk = false :=
  (c3_migrate_rules [instMigrating] "m-1" instMigrating ["h1", "h2"] ["h2"] none rfl).1
    (by decide)

/-- C4: `_lock_migration` fails fast, returning `False` with the state (db
metadata and in-memory table) unmodified, whenever the instance id is
already in the outgoing-migration table or the persisted `gc:migrating`
tag is set; a successful acquisition records both the tag and the table
entry; and from a clean MIGRATING start, of two acquisition attempts for
the same instance identifier exactly one succeeds (the first acquires, the
second is refused without modifying the state further). -/
theorem c4_lock_migration (s : MState) (u : String) (i : Instance)
    (h : dbGet s.db u = some i) :
    ((s.outgoing.contains u = true ∨ mhas i.metadata "gc:migrating" = true) →
      lock_migration s u = some (false, s)) ∧
    (∀ s2, lock_migration s u = some (true, s2) →
      (∃ i2, dbGet s2.db u = some i2 ∧ mhas i2.metadata "gc:migrating" = true) ∧
      s2.outgoing.contains u = true) ∧
    (i.vm_state = MIGRATING → s.outgoing.contains u = false →
      mhas i.metadata "gc:migrating" = false →
      ∃ s2, lock_migration s u = some (true, s2) ∧
        lock_migration s2 u = some (false, s2)) := by
  refine ⟨?_, ?_, ?_⟩
  · intro hbad
    simp only [lock_migration, h]
    by_cases hv : (i.vm_state != MIGRATING) = true
    · rw [if_pos hv]
    · rw [if_neg hv]
      by_cases hc : s.outgoing.contains u = true
      · rw [if_pos hc]
      · rcases hbad with hb | ht
        · exact absurd hb hc
        · rw [if_neg hc, if_pos ht]
  · intro s2 hlk
    simp only [lock_migration, h] at hlk
    by_cases hv : (i.vm_state != MIGRATING) = true
    · rw [if_pos hv] at hlk; simp at hlk
    · rw [if_neg hv] at hlk
      by_cases hc : s.outgoing.contains u = true
      · rw [if_pos hc] at hlk; simp at hlk
      · rw [if_neg hc] at hlk
        by_cases ht : mhas i.metadata "gc:migrating" = true
        · rw [if_pos ht] at hlk; simp at hlk
        · rw [if_neg ht] at hlk
          simp only [Option.some.injEq, Prod.mk.injEq] at hlk
          obtain ⟨-, hs2⟩ := hlk
          subst hs2
          constructor
          · have hg : dbGet (dbUpd s.db u (fun j =>
                { j with metadata := mset j.metadata "gc:migrating" (.str "true") })) u =
                some { i with metadata := mset i.metadata "gc:migrating" (.str "true") } := by
              rw [dbGet_dbUpd_self, h]
              · rfl
              · intro j; rfl
            exact ⟨_, hg, mhas_mset_self _ _ _⟩
          · simp
  · intro hv hc ht
    have hvne : ¬((i.vm_state != MIGRATING) = true) := by rw [hv]; decide
    have hcne : ¬(s.outgoing.contains u = true) := by rw [hc]; decide
    have htne : ¬(mhas i.metadata "gc:migrating" = true) := by rw [ht]; decide
    have hlk1 : lock_migration s u = some (true,
        ⟨dbUpd s.db u (fun j =>
            { j with metadata := mset j.metadata "gc:migrating" (.str "true") }),
          u :: s.outgoing, s.incoming⟩) := by
      simp only [lock_migration, h]
      rw [if_neg hvne, if_neg hcne, if_neg htne]
    refine ⟨_, hlk1, ?_⟩
    have hg : dbGet (dbUpd s.db u (fun j =>
        { j with metadata := mset j.metadata "gc:migrating" (.str "true") })) u =
        some { i with metadata := mset i.metadata "gc:migrating" (.str "true") } := by
      rw [dbGet_dbUpd_self, h]
      · rfl
      · intro j; rfl
    have hcc : ((u :: s.outgoing).contains u) = true := by simp
    simp only [lock_migration, hg]
    rw [if_neg hvne, if_pos hcc]

/-- C4 witness: both acquisition attempts evaluated from a clean MIGRATING
state: the first succeeds, the second is refused. -/
theorem c4_lock_migration_witness :
    ∃ s2, lock_migration mstateMigrating "m-1" = some (true, s2) ∧
      lock_migration s2 "m-1" = some (false, s2) :=
  (c4_lock_migration mstateMigrating "m-1" instMigrating rfl).2.2 rfl rfl rfl

/-- C6: the periodic reconciliation pass can never demote, error, or skip
any instance: its first statement builds the status filter from
`vm_states.MIGRATNG`, an attribute the `vm_states` module does not define,
so every call raises `AttributeError` before reading or writing a single
instance (the comments in `_check_migration_status` describe exactly the
claimed demote/error/ignore behaviour, so the code is a slip). -/
theorem c6_reconciliation_crashes (s : MState) :
    vmStatesAttr "MIGRATNG" = none ∧
    check_migration_status s = .error ("AttributeError", "MIGRATNG") ∧
    periodic_migration_check s = .error ("AttributeError", "MIGRATNG") :=
  ⟨rfl, rfl, rfl⟩

/-- C7, counterexample: blessing the ACTIVE instance `i-1` succeeds, but the
new record's final persisted vm_state is the literal string "blessed" — not
`active` — and the original `i-1` is NOT left unchanged: its metadata gains
`last_clone_num`. -/
theorem c7_counterexample :
    ((full_bless [instActive] "i-1" "i-2" ["f1"]).map (fun db2 =>
        ((dbGet db2 "i-2").map Instance.vm_state,
         (dbGet db2 "i-1").map Instance.metadata))) =
      some (some "blessed", some [("last_clone_num", .int 0)]) ∧
    "blessed" ≠ ACTIVE ∧
    instActive.metadata = [] :=
  ⟨rfl, by decide, rfl⟩

/-- C7 (amended): a successful non-migration bless of an ACTIVE, unblessed,
non-launched instance produces a new record with `blessed_from=<source>`
whose final persisted state is vm_state `"blessed"` (not `active`) together
with `blessed=true` and the `images` artifact references, while the
original record is changed in exactly one way: its metadata receives the
updated `last_clone_num` counter. -/
theorem c7_bless_flow (db : DB) (u newUuid : String) (i : Instance)
    (files : List String) (c : Int) (md1 : Metadata)
    (h : dbGet db u = some i)
    (hb : mhas i.metadata "blessed_from" = false)
    (hl : mhas i.metadata "launched_from" = false)
    (ha : i.vm_state = ACTIVE)
    (hfresh : dbGet db newUuid = none)
    (hne : newUuid ≠ u)
    (hnc : next_clone_num i.metadata = some (c, md1)) :
    ∃ db2, full_bless db u newUuid files = some db2 ∧
      (∃ j, dbGet db2 newUuid = some j ∧
        mget j.metadata "blessed_from" = some (.str u) ∧
        j.vm_state = "blessed" ∧
        mget j.metadata "blessed" = some (.boolean true) ∧
        mget j.metadata "images" = some (.str (String.intercalate "," files))) ∧
      dbGet db2 u = some { i with metadata := md1 } := by
  have hu : i.uuid = u := dbGet_uuid db u i h
  have hok : api_bless_instance db u newUuid =
      .ok (dbUpd db u (fun j => { j with metadata := md1 }) ++
             [copy_instance i newUuid (toString c) false],
           [⟨"bless_instance", newUuid, i.host, []⟩],
           copy_instance i newUuid (toString c) false) := by
    simp only [api_bless_instance, h]
    rw [if_neg (by simp [hb]), if_neg (by simp [hl]),
        if_neg (by simp [ha]), hnc]
  have hgetNI : dbGet (dbUpd db u (fun j => { j with metadata := md1 }) ++
      [copy_instance i newUuid (toString c) false]) newUuid =
      some (copy_instance i newUuid (toString c) false) := by
    have h0 : dbGet (dbUpd db u (fun j => { j with metadata := md1 })) newUuid = none := by
      rw [dbGet_dbUpd_of_ne]
      · exact hfresh
      · intro j; rfl
      · exact hne
    rw [dbGet_append_of_none _ _ _ h0, dbGet_cons, if_pos]
    all_goals rfl
  have hgetSrc : dbGet (dbUpd db u (fun j => { j with metadata := md1 }) ++
      [copy_instance i newUuid (toString c) false]) u =
      some { i with metadata := md1 } := by
    have h0 : dbGet (dbUpd db u (fun j => { j with metadata := md1 })) u =
        some { i with metadata := md1 } := by
      rw [dbGet_dbUpd_self]
      · rw [h]; rfl
      · intro j; rfl
    exact dbGet_append_of_some _ _ _ _ h0
  have h1 : mget [("blessed_from", MVal.str i.uuid)] "launched_from" = none := by
    rw [mget_cons, if_neg (show ¬("blessed_from" = "launched_from") by decide)]
    rfl
  have h2 : mget [("blessed_from", MVal.str i.uuid)] "blessed_from" =
      some (.str i.uuid) := by
    rw [mget_cons, if_pos rfl]
  have hsrc : source_id (copy_instance i newUuid (toString c) false).metadata =
      some i.uuid := by
    show source_id [("blessed_from", MVal.str i.uuid)] = some i.uuid
    simp only [source_id, h1, h2]
  have hml : full_bless db u newUuid files =
      (mgr_bless_instance
        (dbUpd db u (fun j => { j with metadata := md1 }) ++
          [copy_instance i newUuid (toString c) false])
        newUuid none true files none).map (·.1) := by
    unfold full_bless
    rw [hok]
    rfl
  rw [hml]
  have hmgr : mgr_bless_instance
      (dbUpd db u (fun j => { j with metadata := md1 }) ++
        [copy_instance i newUuid (toString c) false])
      newUuid none true files none =
      some (dbUpd (dbUpd
          (dbUpd db u (fun j => { j with metadata := md1 }) ++
            [copy_instance i newUuid (toString c) false])
          newUuid (fun j => { j with vm_state := "blessed", task_state := none }))
        newUuid (fun j =>
          { j with metadata := mset (mset j.metadata "images"
              (.str (String.intercalate "," files))) "blessed" (.boolean true) }),
        none) := by
    simp [mgr_bless_instance, hgetNI, hsrc, hu, hgetSrc]
  rw [hmgr]
  simp only [Option.map_some']
  refine ⟨_, rfl,
    ⟨{ uuid := newUuid, vm_state := "blessed", task_state := none,
       host := none,
       metadata := mset (mset [("blessed_from", MVal.str i.uuid)] "images"
         (MVal.str (String.intercalate "," files))) "blessed" (MVal.boolean true),
       instance_type_id := i.instance_type_id, memory_mb := i.memory_mb,
       vcpus := i.vcpus, root_gb := i.root_gb, ephemeral_gb := i.ephemeral_gb,
       display_name := i.display_name ++ "-" ++ toString c,
       display_description := i.display_description,
       availability_zone := i.availability_zone, os_type := i.os_type,
       deleted := false }, ?_, ?_, ?_, ?_, ?_⟩, ?_⟩
  · rw [dbGet_dbUpd_self, dbGet_dbUpd_self, hgetNI]
    · rfl
    all_goals intro j; rfl
  · show mget (mset (mset [("blessed_from", MVal.str i.uuid)] "images"
        (.str (String.intercalate "," files))) "blessed" (.boolean true))
        "blessed_from" = some (.str u)
    rw [mget_mset_of_ne _ _ _ _ (by decide), mget_mset_of_ne _ _ _ _ (by decide), h2, hu]
  · rfl
  · show mget (mset (mset [("blessed_from", MVal.str i.uuid)] "images"
        (.str (String.intercalate "," files))) "blessed" (.boolean true))
        "blessed" = some (.boolean true)
    exact mget_mset_self _ _ _
  · show mget (mset (mset [("blessed_from", MVal.str i.uuid)] "images"
        (.str (String.intercalate "," files))) "blessed" (.boolean true))
        "images" = some (.str (String.intercalate "," files))
    rw [mget_mset_of_ne _ _ _ _ (by decide), mget_mset_self]
  · rw [dbGet_dbUpd_of_ne, dbGet_dbUpd_of_ne, hgetSrc]
    all_goals first
      | (intro j; rfl)
      | exact Ne.symm hne

/-- C7 witness: the amended bless flow evaluated on the concrete `i-1`. -/
theorem c7_bless_flow_witness :
    ∃ db2, full_bless [instActive] "i-1" "i-2" ["f1"] = some db2 ∧
      (∃ j, dbGet db2 "i-2" = some j ∧
        mget j.metadata "blessed_from" = some (.str "i-1") ∧
        j.vm_state = "blessed" ∧
        mget j.metadata "blessed" = some (.boolean true) ∧
        mget j.metadata "images" = some (.str "f1")) ∧
      dbGet db2 "i-1" = some { instActive with metadata := [("last_clone_num", .int 0)] } :=
  c7_bless_flow [instActive] "i-1" "i-2" instActive ["f1"] 0
    [("last_clone_num", .int 0)] rfl rfl rfl rfl rfl (by decide) rfl

theorem mgr_migrate_finally_spec (db2 : DB) (outg inc : List String)
    (u : String) (err : Option MigErr) (j2 : Instance)
    (hget : dbGet db2 u = some j2) :
    ∃ j4 s4, mgr_migrate_finally ⟨db2, outg, inc⟩ u err = some (err, s4) ∧
      dbGet s4.db u = some j4 ∧
      j4.metadata = mdel j2.metadata "gc:migrating" ∧
      s4.outgoing = outg.erase u ∧
      (j2.vm_state = MIGRATING → j4.vm_state = ACTIVE) ∧
      (j2.vm_state ≠ MIGRATING → j4.vm_state = j2.vm_state) := by
  have hun : unlock_migration ⟨db2, outg, inc⟩ u =
      some ⟨dbUpd db2 u (fun j => { j with metadata := mdel j.metadata "gc:migrating" }),
            outg.erase u, inc⟩ := by
    unfold unlock_migration
    rw [show dbGet (⟨db2, outg, inc⟩ : MState).db u = some j2 from hget]
    rfl
  have hget3 : dbGet (dbUpd db2 u
      (fun j => { j with metadata := mdel j.metadata "gc:migrating" })) u =
      some { j2 with metadata := mdel j2.metadata "gc:migrating" } := by
    rw [dbGet_dbUpd_self]
    · rw [hget]; rfl
    · intro j; rfl
  by_cases hm : j2.vm_state = MIGRATING
  · have hbeq : (({ j2 with metadata := mdel j2.metadata "gc:migrating" } : Instance).vm_state
        == MIGRATING) = true := beq_iff_eq.mpr hm
    refine ⟨{ j2 with metadata := mdel j2.metadata "gc:migrating", vm_state := ACTIVE },
      ⟨dbUpd (dbUpd db2 u
          (fun j => { j with metadata := mdel j.metadata "gc:migrating" })) u
          (fun k => { k with vm_state := ACTIVE }),
        outg.erase u, inc⟩,
      ?_, ?_, rfl, rfl, fun _ => rfl, fun hcon => absurd hm hcon⟩
    · simp only [mgr_migrate_finally, hun, hget3, hbeq, if_true]
    · show dbGet (dbUpd (dbUpd db2 u
        (fun j => { j with metadata := mdel j.metadata "gc:migrating" })) u
        (fun k => { k with vm_state := ACTIVE })) u = _
      rw [dbGet_dbUpd_self, hget3]
      · rfl
      · intro j; rfl
  · have hbeq : (({ j2 with metadata := mdel j2.metadata "gc:migrating" } : Instance).vm_state
        == MIGRATING) = false := by
      simp only [beq_eq_false_iff_ne, ne_eq]
      exact hm
    refine ⟨{ j2 with metadata := mdel j2.metadata "gc:migrating" },
      ⟨dbUpd db2 u (fun j => { j with metadata := mdel j.metadata "gc:migrating" }),
        outg.erase u, inc⟩,
      ?_, hget3, rfl, rfl, fun hcon => absurd hcon hm, fun _ => rfl⟩
    simp only [mgr_migrate_finally, hun, hget3, hbeq, Bool.false_eq_true, if_false]

/-- C5, counterexample: with the hypervisor bless failing (and the rollback
path healthy — `rollbackOk = true` — but never reached), the manager's
migrate releases the lock, propagates no exception, and leaves the
instance in ERROR: the final state is ERROR although the rollback did not
fail, contradicting "ERROR only if rollback itself fails". -/
theorem c5_counterexample :
    ((mgr_migrate_instance mstateMigrating "m-1" "h2" "h1" outcomesBlessFail).map
      (fun r => (r.1, (dbGet r.2.db "m-1").map Instance.vm_state,
                 r.2.outgoing.contains "m-1",
                 (dbGet r.2.db "m-1").map (fun j => mhas j.metadata "gc:migrating")))) =
      some (none, some VMERROR, false, some false) ∧
    outcomesBlessFail.rollbackOk = true :=
  ⟨rfl, rfl⟩

/-- C5 (amended): whenever the manager's migrate operation acquires the
migration lock, on every exit path the lock is released (persisted
`gc:migrating` tag and in-memory table entry removed) and the instance
ends in ERROR or ACTIVE; the final state is ERROR exactly when the
rollback itself fails or the migration bless step fails (the latter with
no exception re-raised and no rollback attempted); and an exception is
re-raised exactly on route-resolution failure, pre-migration-hook failure,
or rollback failure — in every other case, including a successful rollback,
the still-MIGRATING instance is promoted back to ACTIVE. -/
theorem c5_migrate_exit_paths (s : MState) (u dest selfHost : String)
    (i : Instance) (o : MigOutcomes)
    (h : dbGet s.db u = some i)
    (hv : i.vm_state = MIGRATING)
    (hc : s.outgoing.contains u = false)
    (ht : mhas i.metadata "gc:migrating" = false) :
    ∃ err s4 j4, mgr_migrate_instance s u dest selfHost o = some (err, s4) ∧
      dbGet s4.db u = some j4 ∧
      mhas j4.metadata "gc:migrating" = false ∧
      s4.outgoing.contains u = false ∧
      (j4.vm_state = VMERROR ∨ j4.vm_state = ACTIVE) ∧
      (j4.vm_state = VMERROR ↔
        (o.routeOk = true ∧ o.blessOk = false) ∨
        (o.routeOk = true ∧ o.blessOk = true ∧ o.preMigOk = true ∧
         o.transferOk = false ∧ o.rollbackOk = false)) ∧
      (err.isSome = true ↔
        (o.routeOk = false) ∨
        (o.routeOk = true ∧ o.blessOk = true ∧ o.preMigOk = false) ∨
        (o.routeOk = true ∧ o.blessOk = true ∧ o.preMigOk = true ∧
         o.transferOk = false ∧ o.rollbackOk = false)) := by
  have hae : ¬(ACTIVE = VMERROR) := by decide
  have hvne : ¬((i.vm_state != MIGRATING) = true) := by rw [hv]; decide
  have hcne : ¬(s.outgoing.contains u = true) := by rw [hc]; decide
  have htne : ¬(mhas i.metadata "gc:migrating" = true) := by rw [ht]; decide
  have hlock : lock_migration s u = some (true,
      ⟨dbUpd s.db u (fun j =>
          { j with metadata := mset j.metadata "gc:migrating" (.str "true") }),
        u :: s.outgoing, s.incoming⟩) := by
    simp only [lock_migration, h]
    rw [if_neg hvne, if_neg hcne, if_neg htne]
  have hget1 : dbGet (dbUpd s.db u (fun j =>
      { j with metadata := mset j.metadata "gc:migrating" (.str "true") })) u =
      some { i with metadata := mset i.metadata "gc:migrating" (.str "true") } := by
    rw [dbGet_dbUpd_self]
    · rw [h]; rfl
    · intro j; rfl
  by_cases hro : o.routeOk = true
  · by_cases hbo : o.blessOk = true
    · have hblessT : mgr_bless_instance
          (dbUpd s.db u (fun j =>
            { j with metadata := mset j.metadata "gc:migrating" (.str "true") }))
          u (some ("mcdist://" ++ selfHost)) o.blessOk o.blessFiles
          (some ("mcdist://" ++ selfHost)) =
          some (dbUpd (dbUpd s.db u (fun j =>
              { j with metadata := mset j.metadata "gc:migrating" (.str "true") })) u
              (fun j =>
                { j with metadata := (mset j.metadata "images"
                    (.str (String.intercalate "," o.blessFiles))) }),
            some ("mcdist://" ++ selfHost)) := by
        simp [mgr_bless_instance, hget1, hbo]
      have hget2 : dbGet (dbUpd (dbUpd s.db u (fun j =>
          { j with metadata := mset j.metadata "gc:migrating" (.str "true") })) u
          (fun j =>
            { j with metadata := (mset j.metadata "images"
                (.str (String.intercalate "," o.blessFiles))) })) u =
          some { i with metadata := (mset (mset i.metadata "gc:migrating" (.str "true"))
            "images" (.str (String.intercalate "," o.blessFiles))) } := by
        rw [dbGet_dbUpd_self, hget1]
        · rfl
        · intro j; rfl
      by_cases hpo : o.preMigOk = true
      · by_cases hto : o.transferOk = true
        · -- success path
          have hdo : do_migrate_instance
              ⟨dbUpd s.db u (fun j =>
                { j with metadata := mset j.metadata "gc:migrating" (.str "true") }),
                u :: s.outgoing, s.incoming⟩ u dest selfHost o =
              (none, ⟨dbUpd (dbUpd (dbUpd s.db u (fun j =>
                  { j with metadata := mset j.metadata "gc:migrating" (.str "true") })) u
                  (fun j =>
                    { j with metadata := (mset j.metadata "images"
                        (.str (String.intercalate "," o.blessFiles))) })) u
                  (fun j => { j with host := some dest, task_state := none }),
                u :: s.outgoing, s.incoming⟩) := by
            simp [do_migrate_instance, hget1, hro, hblessT, hpo, hto]
          have hget3 : dbGet (dbUpd (dbUpd (dbUpd s.db u (fun j =>
              { j with metadata := mset j.metadata "gc:migrating" (.str "true") })) u
              (fun j =>
                { j with metadata := (mset j.metadata "images"
                    (.str (String.intercalate "," o.blessFiles))) })) u
              (fun j => { j with host := some dest, task_state := none })) u =
              some { i with
                metadata := (mset (mset i.metadata "gc:migrating" (.str "true"))
                  "images" (.str (String.intercalate "," o.blessFiles))),
                host := some dest, task_state := none } := by
            rw [dbGet_dbUpd_self, hget2]
            · rfl
            · intro j; rfl
          obtain ⟨j4, s4, hfin, hg4, hmd4, hout4, hmig4, -⟩ :=
            mgr_migrate_finally_spec _ (u :: s.outgoing) s.incoming u none _ hget3
          have hvm4 : j4.vm_state = ACTIVE := hmig4 hv
          refine ⟨none, s4, j4, ?_, hg4, ?_, ?_, Or.inr hvm4, ?_, ?_⟩
          · simp only [mgr_migrate_instance, hlock, hdo]
            exact hfin
          · rw [hmd4]; exact mhas_mdel_self _ _
          · rw [hout4, List.erase_cons_head]; exact hc
          · rw [hvm4]; simp [hro, hbo, hpo, hto, hae]
          · simp [hro, hpo, hto]
        · have hto2 : o.transferOk = false := by simpa using hto
          by_cases hko : o.rollbackOk = true
          · -- rollback succeeds
            have hdo : do_migrate_instance
                ⟨dbUpd s.db u (fun j =>
                  { j with metadata := mset j.metadata "gc:migrating" (.str "true") }),
                  u :: s.outgoing, s.incoming⟩ u dest selfHost o =
                (none, ⟨dbUpd (dbUpd (dbUpd (dbUpd s.db u (fun j =>
                    { j with metadata := mset j.metadata "gc:migrating" (.str "true") })) u
                    (fun j =>
                      { j with metadata := (mset j.metadata "images"
                          (.str (String.intercalate "," o.blessFiles))) })) u
                    (fun j => { j with vm_state := MIGRATING, task_state := some "spawning", host := some selfHost })) u
                    (fun j => { j with host := some selfHost, task_state := none }),
                  u :: s.outgoing, u :: s.incoming⟩) := by
              simp [do_migrate_instance, hget1, hro, hblessT, hpo, hto2, hko]
            have hget3 : dbGet (dbUpd (dbUpd (dbUpd (dbUpd s.db u (fun j =>
                { j with metadata := mset j.metadata "gc:migrating" (.str "true") })) u
                (fun j =>
                  { j with metadata := (mset j.metadata "images"
                      (.str (String.intercalate "," o.blessFiles))) })) u
                (fun j => { j with vm_state := MIGRATING, task_state := some "spawning", host := some selfHost })) u
                (fun j => { j with host := some selfHost, task_state := none })) u =
                some { i with
                  metadata := (mset (mset i.metadata "gc:migrating" (.str "true"))
                    "images" (.str (String.intercalate "," o.blessFiles))),
                  vm_state := MIGRATING, host := some selfHost, task_state := none } := by
              rw [dbGet_dbUpd_self, dbGet_dbUpd_self, hget2]
              · rfl
              all_goals intro j; rfl
            obtain ⟨j4, s4, hfin, hg4, hmd4, hout4, hmig4, -⟩ :=
              mgr_migrate_finally_spec _ (u :: s.outgoing) (u :: s.incoming) u none _ hget3
            have hvm4 : j4.vm_state = ACTIVE := hmig4 rfl
            refine ⟨none, s4, j4, ?_, hg4, ?_, ?_, Or.inr hvm4, ?_, ?_⟩
            · simp only [mgr_migrate_instance, hlock, hdo]
              exact hfin
            · rw [hmd4]; exact mhas_mdel_self _ _
            · rw [hout4, List.erase_cons_head]; exact hc
            · rw [hvm4]; simp [hro, hbo, hpo, hto2, hko, hae]
            · simp [hro, hbo, hpo, hto2, hko]
          · have hko2 : o.rollbackOk = false := by simpa using hko
            have hdo : do_migrate_instance
                ⟨dbUpd s.db u (fun j =>
                  { j with metadata := mset j.metadata "gc:migrating" (.str "true") }),
                  u :: s.outgoing, s.incoming⟩ u dest selfHost o =
                (some .rollbackError, ⟨dbUpd (dbUpd (dbUpd s.db u (fun j =>
                    { j with metadata := mset j.metadata "gc:migrating" (.str "true") })) u
                    (fun j =>
                      { j with metadata := (mset j.metadata "images"
                          (.str (String.intercalate "," o.blessFiles))) })) u
                    (fun j => { j with vm_state := VMERROR }),
                  u :: s.outgoing, s.incoming⟩) := by
              simp [do_migrate_instance, hget1, hro, hblessT, hpo, hto2, hko2]
            have hget3 : dbGet (dbUpd (dbUpd (dbUpd s.db u (fun j =>
                { j with metadata := mset j.metadata "gc:migrating" (.str "true") })) u
                (fun j =>
                  { j with metadata := (mset j.metadata "images"
                      (.str (String.intercalate "," o.blessFiles))) })) u
                (fun j => { j with vm_state := VMERROR })) u =
                some { i with
                  metadata := (mset (mset i.metadata "gc:migrating" (.str "true"))
                    "images" (.str (String.intercalate "," o.blessFiles))),
                  vm_state := VMERROR } := by
              rw [dbGet_dbUpd_self, hget2]
              · rfl
              · intro j; rfl
            obtain ⟨j4, s4, hfin, hg4, hmd4, hout4, -, hnm4⟩ :=
              mgr_migrate_finally_spec _ (u :: s.outgoing) s.incoming u (some .rollbackError) _ hget3
            have hvm4 : j4.vm_state = VMERROR := hnm4 (show VMERROR ≠ MIGRATING by decide)
            refine ⟨some .rollbackError, s4, j4, ?_, hg4, ?_, ?_, Or.inl hvm4, ?_, ?_⟩
            · simp only [mgr_migrate_instance, hlock, hdo]
              exact hfin
            · rw [hmd4]; exact mhas_mdel_self _ _
            · rw [hout4, List.erase_cons_head]; exact hc
            · rw [hvm4]; simp [hro, hbo, hpo, hto2, hko2]
            · simp [hro, hbo, hpo, hto2, hko2]
      · have hpo2 : o.preMigOk = false := by simpa using hpo
        have hdo : do_migrate_instance
            ⟨dbUpd s.db u (fun j =>
              { j with metadata := mset j.metadata "gc:migrating" (.str "true") }),
              u :: s.outgoing, s.incoming⟩ u dest selfHost o =
            (some .preMigError, ⟨dbUpd (dbUpd s.db u (fun j =>
                { j with metadata := mset j.metadata "gc:migrating" (.str "true") })) u
                (fun j =>
                  { j with metadata := (mset j.metadata "images"
                      (.str (String.intercalate "," o.blessFiles))) }),
              u :: s.outgoing, s.incoming⟩) := by
          simp [do_migrate_instance, hget1, hro, hblessT, hpo2]
        obtain ⟨j4, s4, hfin, hg4, hmd4, hout4, hmig4, -⟩ :=
          mgr_migrate_finally_spec _ (u :: s.outgoing) s.incoming u (some .preMigError) _ hget2
        have hvm4 : j4.vm_state = ACTIVE := hmig4 hv
        refine ⟨some .preMigError, s4, j4, ?_, hg4, ?_, ?_, Or.inr hvm4, ?_, ?_⟩
        · simp only [mgr_migrate_instance, hlock, hdo]
          exact hfin
        · rw [hmd4]; exact mhas_mdel_self _ _
        · rw [hout4, List.erase_cons_head]; exact hc
        · rw [hvm4]; simp [hro, hbo, hpo2, hae]
        · simp [hro, hbo, hpo2]
    · have hbo2 : o.blessOk = false := by simpa using hbo
      have hblessF : mgr_bless_instance
          (dbUpd s.db u (fun j =>
            { j with metadata := mset j.metadata "gc:migrating" (.str "true") }))
          u (some ("mcdist://" ++ selfHost)) o.blessOk o.blessFiles
          (some ("mcdist://" ++ selfHost)) =
          some (dbUpd (dbUpd s.db u (fun j =>
              { j with metadata := mset j.metadata "gc:migrating" (.str "true") })) u
              (fun j => { j with vm_state := VMERROR, task_state := none }),
            none) := by
        simp [mgr_bless_instance, hget1, hbo2]
      have hdo : do_migrate_instance
          ⟨dbUpd s.db u (fun j =>
            { j with metadata := mset j.metadata "gc:migrating" (.str "true") }),
            u :: s.outgoing, s.incoming⟩ u dest selfHost o =
          (none, ⟨dbUpd (dbUpd s.db u (fun j =>
              { j with metadata := mset j.metadata "gc:migrating" (.str "true") })) u
              (fun j => { j with vm_state := VMERROR, task_state := none }),
            u :: s.outgoing, s.incoming⟩) := by
        simp [do_migrate_instance, hget1, hro, hblessF]
      have hget2 : dbGet (dbUpd (dbUpd s.db u (fun j =>
          { j with metadata := mset j.metadata "gc:migrating" (.str "true") })) u
          (fun j => { j with vm_state := VMERROR, task_state := none })) u =
          some { i with
            metadata := mset i.metadata "gc:migrating" (.str "true"),
            vm_state := VMERROR, task_state := none } := by
        rw [dbGet_dbUpd_self, hget1]
        · rfl
        · intro j; rfl
      obtain ⟨j4, s4, hfin, hg4, hmd4, hout4, -, hnm4⟩ :=
        mgr_migrate_finally_spec _ (u :: s.outgoing) s.incoming u none _ hget2
      have hvm4 : j4.vm_state = VMERROR := hnm4 (show VMERROR ≠ MIGRATING by decide)
      refine ⟨none, s4, j4, ?_, hg4, ?_, ?_, Or.inl hvm4, ?_, ?_⟩
      · simp only [mgr_migrate_instance, hlock, hdo]
        exact hfin
      · rw [hmd4]; exact mhas_mdel_self _ _
      · rw [hout4, List.erase_cons_head]; exact hc
      · rw [hvm4]; simp [hro, hbo2]
      · simp [hro, hbo2]
  · have hro2 : o.routeOk = false := by simpa using hro
    have hdo : do_migrate_instance
        ⟨dbUpd s.db u (fun j =>
          { j with metadata := mset j.metadata "gc:migrating" (.str "true") }),
          u :: s.outgoing, s.incoming⟩ u dest selfHost o =
        (some .routeError, ⟨dbUpd s.db u (fun j =>
            { j with metadata := mset j.metadata "gc:migrating" (.str "true") }),
          u :: s.outgoing, s.incoming⟩) := by
      simp [do_migrate_instance, hget1, hro2]
    obtain ⟨j4, s4, hfin, hg4, hmd4, hout4, hmig4, -⟩ :=
      mgr_migrate_finally_spec _ (u :: s.outgoing) s.incoming u (some .routeError) _ hget1
    have hvm4 : j4.vm_state = ACTIVE := hmig4 hv
    refine ⟨some .routeError, s4, j4, ?_, hg4, ?_, ?_, Or.inr hvm4, ?_, ?_⟩
    · simp only [mgr_migrate_instance, hlock, hdo]
      exact hfin
    · rw [hmd4]; exact mhas_mdel_self _ _
    · rw [hout4, List.erase_cons_head]; exact hc
    · rw [hvm4]; simp [hro2, hae]
    · simp [hro2]

/-- C5 witness: the amended theorem evaluated with a failed transfer and a
successful rollback: the lock is released, no exception propagates, and
the instance is not left in ERROR. -/
theorem c5_migrate_exit_paths_witness :
    ∃ err s4 j4,
      mgr_migrate_instance mstateMigrating "m-1" "h2" "h1" outcomesRollback =
        some (err, s4) ∧
      dbGet s4.db "m-1" = some j4 ∧
      mhas j4.metadata "gc:migrating" = false ∧
      s4.outgoing.contains "m-1" = false ∧
      (j4.vm_state = VMERROR ∨ j4.vm_state = ACTIVE) ∧
      (j4.vm_state = VMERROR ↔
        (outcomesRollback.routeOk = true ∧ outcomesRollback.blessOk = false) ∨
        (outcomesRollback.routeOk = true ∧ outcomesRollback.blessOk = true ∧
         outcomesRollback.preMigOk = true ∧ outcomesRollback.transferOk = false ∧
         outcomesRollback.rollbackOk = false)) ∧
      (err.isSome = true ↔
        (outcomesRollback.routeOk = false) ∨
        (outcomesRollback.routeOk = true ∧ outcomesRollback.blessOk = true ∧
         outcomesRollback.preMigOk = false) ∨
        (outcomesRollback.routeOk = true ∧ outcomesRollback.blessOk = true ∧
         outcomesRollback.preMigOk = true ∧ outcomesRollback.transferOk = false ∧
         outcomesRollback.rollbackOk = false)) :=
  c5_migrate_exit_paths mstateMigrating "m-1" "h2" "h1" instMigrating
    outcomesRollback rfl rfl rfl rfl

theorem char_toNat_ofNat (n : Nat) (h : n < 55296) : (Char.ofNat n).toNat = n := by
  unfold Char.ofNat
  rw [dif_pos (Or.inl h : n.isValidChar)]
  rfl

theorem toLower_digit (c : Char) (h : c.isDigit = true) : c.toLower = c := by
  unfold Char.isDigit at h
  simp only [Bool.and_eq_true, decide_eq_true_eq] at h
  have h3 : Char.toNat c ≤ 57 := UInt32.toNat_le_of_le (by norm_num) h.2
  unfold Char.toLower
  rw [if_neg]
  omega

theorem isDigit_of_toLower_isDigit (c : Char)
    (h : (c.toLower).isDigit = true) : c.isDigit = true := by
  unfold Char.toLower at h
  by_cases hcond : 65 ≤ Char.toNat c ∧ Char.toNat c ≤ 90
  · rw [if_pos hcond] at h
    exfalso
    have hv : (Char.ofNat (Char.toNat c + 32)).toNat = Char.toNat c + 32 :=
      char_toNat_ofNat _ (by omega)
    unfold Char.isDigit at h
    simp only [Bool.and_eq_true, decide_eq_true_eq] at h
    have h4 : (Char.ofNat (Char.toNat c + 32)).toNat ≤ 57 :=
      UInt32.toNat_le_of_le (by norm_num) h.2
    rw [hv] at h4
    omega
  · rw [if_neg hcond] at h
    exact h

theorem map_toLower_digits (l : List Char) (h : l.all Char.isDigit = true) :
    l.map Char.toLower = l := by
  induction l with
  | nil => rfl
  | cons c t ih =>
    rw [List.all_cons, Bool.and_eq_true] at h
    rw [List.map_cons, toLower_digit c h.1, ih h.2]

theorem all_isDigit_of_map_toLower (l : List Char)
    (h : (l.map Char.toLower).all Char.isDigit = true) :
    l.all Char.isDigit = true := by
  rw [List.all_eq_true] at h ⊢
  intro c hc
  exact isDigit_of_toLower_isDigit c (h _ (List.mem_map_of_mem _ hc))

theorem stripSuffix_append (ds suf : List Char) :
    stripSuffix (ds ++ suf) suf = some ds := by
  unfold stripSuffix
  have hlen : (ds ++ suf).length - suf.length = ds.length := by
    simp [List.length_append]
  rw [if_pos (by simp [List.length_append] : suf.length ≤ (ds ++ suf).length)]
  rw [hlen, List.drop_left, List.take_left]
  rw [if_pos (by simp)]

theorem stripSuffix_eq (cs suf b : List Char)
    (h : stripSuffix cs suf = some b) : cs = b ++ suf := by
  unfold stripSuffix at h
  by_cases hl : suf.length ≤ cs.length
  · rw [if_pos hl] at h
    by_cases hd : (cs.drop (cs.length - suf.length) == suf) = true
    · rw [if_pos hd] at h
      obtain rfl : cs.take (cs.length - suf.length) = b := Option.some_inj.mp h
      have hdeq : cs.drop (cs.length - suf.length) = suf := eq_of_beq hd
      conv_lhs => rw [← List.take_append_drop (cs.length - suf.length) cs]
      rw [hdeq]
    · rw [if_neg hd] at h; exact absurd h (by simp)
  · rw [if_neg hl] at h; exact absurd h (by simp)

theorem tryPattern_some_decomp (cs pat : List Char) (sh : Nat) (r : Nat × Nat)
    (h : tryPattern cs pat sh = some r) :
    ∃ b, cs = b ++ pat ∧ b ≠ [] ∧ b.all Char.isDigit = true ∧
      r = (digitsVal b, sh) := by
  unfold tryPattern at h
  cases hs : stripSuffix cs pat with
  | none =>
    rw [hs] at h
    exact Option.noConfusion h
  | some b =>
    rw [hs] at h
    have h2 : (if isDigits b = true then some (digitsVal b, sh) else none) =
        some r := h
    by_cases hd : isDigits b = true
    · rw [if_pos hd] at h2
      unfold isDigits at hd
      simp only [Bool.and_eq_true] at hd
      refine ⟨b, stripSuffix_eq cs pat b hs, ?_, ?_, (Option.some_inj.mp h2).symm⟩
      · intro hbnil
        rw [hbnil] at hd
        simp at hd
      · simpa using hd.2
    · rw [if_neg hd] at h2
      exact Option.noConfusion h2

theorem tryPattern_append (ds suf : List Char) (sh : Nat)
    (hne : ds ≠ []) (hdig : ds.all Char.isDigit = true) :
    tryPattern (ds ++ suf) suf sh = some (digitsVal ds, sh) := by
  unfold tryPattern
  rw [stripSuffix_append]
  show (if isDigits ds = true then some (digitsVal ds, sh) else none) =
    some (digitsVal ds, sh)
  rw [if_pos]
  unfold isDigits
  simp only [Bool.and_eq_true]
  constructor
  · cases ds with
    | nil => exact absurd rfl hne
    | cons a t => rfl
  · simpa using hdig

theorem tryPattern_none_same_len (ds suf pat : List Char) (sh : Nat)
    (hlen : suf.length = pat.length) (hne : suf ≠ pat) :
    tryPattern (ds ++ suf) pat sh = none := by
  cases htp : tryPattern (ds ++ suf) pat sh with
  | none => rfl
  | some r =>
    obtain ⟨b, heq, -, -, -⟩ := tryPattern_some_decomp _ _ _ _ htp
    obtain ⟨-, h2⟩ := List.append_inj' heq (by rw [hlen])
    exact absurd h2 hne

theorem no_digit_mem (ds : List Char) (c : Char)
    (hdig : ds.all Char.isDigit = true) (hc : c.isDigit = false)
    (hmem : c ∈ ds) : False := by
  rw [List.all_eq_true] at hdig
  have := hdig c hmem
  rw [hc] at this
  exact Bool.noConfusion this

theorem tryPattern_none_digits (ds pat : List Char) (sh : Nat) (c : Char)
    (hdig : ds.all Char.isDigit = true) (hc : c.isDigit = false)
    (hmem : c ∈ pat) : tryPattern ds pat sh = none := by
  cases htp : tryPattern ds pat sh with
  | none => rfl
  | some r =>
    obtain ⟨b, heq, -, -, -⟩ := tryPattern_some_decomp _ _ _ _ htp
    exact (no_digit_mem ds c hdig hc
      (by rw [heq]; exact List.mem_append_right b hmem)).elim

theorem tryPattern_none_b_vs_two (ds : List Char) (t : Char) (sh : Nat)
    (hdig : ds.all Char.isDigit = true) (ht : t.isDigit = false) :
    tryPattern (ds ++ ['b']) [t, 'b'] sh = none := by
  cases htp : tryPattern (ds ++ ['b']) [t, 'b'] sh with
  | none => rfl
  | some r =>
    obtain ⟨b, heq, -, -, -⟩ := tryPattern_some_decomp _ _ _ _ htp
    have heq2 : ds ++ ['b'] = (b ++ [t]) ++ ['b'] := by
      rw [heq, List.append_assoc]
      rfl
    obtain ⟨h1, -⟩ := List.append_inj' heq2 rfl
    exact (no_digit_mem ds t hdig ht
      (by rw [h1]; exact List.mem_append_right b (by simp))).elim

theorem memMatch_append (ds pat : List Char) (sh : Nat)
    (hne : ds ≠ []) (hdig : ds.all Char.isDigit = true)
    (hmem : (pat, sh) ∈ suffixTable) :
    memMatch (ds ++ pat) = some (digitsVal ds, sh) := by
  have hb : Char.isDigit 'b' = false := by decide
  simp only [suffixTable, List.mem_cons, Prod.mk.injEq, List.not_mem_nil,
    or_false] at hmem
  rcases hmem with ⟨rfl, rfl⟩ | ⟨rfl, rfl⟩ | ⟨rfl, rfl⟩ | ⟨rfl, rfl⟩ |
    ⟨rfl, rfl⟩ | ⟨rfl, rfl⟩
  · have hfire := tryPattern_append ds [] 0 hne hdig
    rw [List.append_nil] at hfire ⊢
    unfold memMatch
    rw [tryPattern_none_digits ds ['t', 'b'] 40 'b' hdig hb (by simp),
        tryPattern_none_digits ds ['g', 'b'] 30 'b' hdig hb (by simp),
        tryPattern_none_digits ds ['m', 'b'] 20 'b' hdig hb (by simp),
        tryPattern_none_digits ds ['k', 'b'] 10 'b' hdig hb (by simp),
        tryPattern_none_digits ds ['b'] 0 'b' hdig hb (by simp),
        hfire]
    rfl
  · unfold memMatch
    rw [tryPattern_none_b_vs_two ds 't' 40 hdig (by decide),
        tryPattern_none_b_vs_two ds 'g' 30 hdig (by decide),
        tryPattern_none_b_vs_two ds 'm' 20 hdig (by decide),
        tryPattern_none_b_vs_two ds 'k' 10 hdig (by decide),
        tryPattern_append ds ['b'] 0 hne hdig]
    rfl
  · unfold memMatch
    rw [tryPattern_none_same_len ds ['k', 'b'] ['t', 'b'] 40 rfl (by decide),
        tryPattern_none_same_len ds ['k', 'b'] ['g', 'b'] 30 rfl (by decide),
        tryPattern_none_same_len ds ['k', 'b'] ['m', 'b'] 20 rfl (by decide),
        tryPattern_append ds ['k', 'b'] 10 hne hdig]
    rfl
  · unfold memMatch
    rw [tryPattern_none_same_len ds ['m', 'b'] ['t', 'b'] 40 rfl (by decide),
        tryPattern_none_same_len ds ['m', 'b'] ['g', 'b'] 30 rfl (by decide),
        tryPattern_append ds ['m', 'b'] 20 hne hdig]
    rfl
  · unfold memMatch
    rw [tryPattern_none_same_len ds ['g', 'b'] ['t', 'b'] 40 rfl (by decide),
        tryPattern_append ds ['g', 'b'] 30 hne hdig]
    rfl
  · unfold memMatch
    rw [tryPattern_append ds ['t', 'b'] 40 hne hdig]
    rfl

theorem sound_of_fired (s : String) (pat : List Char) (sh : Nat) (r : Nat × Nat)
    (hfire : tryPattern (s.toList.map Char.toLower) pat sh = some r) :
    ∃ ds suf, s.toList = ds ++ suf ∧ ds ≠ [] ∧ ds.all Char.isDigit = true ∧
      suf.map Char.toLower = pat ∧ r = (digitsVal ds, sh) := by
  obtain ⟨b, hbeq, hbne, hbdig, hr⟩ := tryPattern_some_decomp _ _ _ _ hfire
  obtain ⟨l1, l2, hsplit, hmap1, hmap2⟩ := List.map_eq_append_iff.mp hbeq
  have hdig1 : l1.all Char.isDigit = true :=
    all_isDigit_of_map_toLower l1 (by rw [hmap1]; exact hbdig)
  have hfix : l1.map Char.toLower = l1 := map_toLower_digits l1 hdig1
  have hbl : b = l1 := by rw [← hmap1, hfix]
  refine ⟨l1, l2, hsplit, ?_, hdig1, hmap2, ?_⟩
  · intro h0
    apply hbne
    rw [hbl, h0]
  · rw [hr, hbl]

/-- C10: the memory-target parser accepts exactly the strings of one or
more decimal digits followed by an optional case-insensitive suffix b, kb,
mb, gb or tb; an accepted string yields `max 1 ((value << shift) >> 12)`
pages with the shift 0/10/20/30/40 given by the suffix, hence never fewer
than one page; every other string raises `ValueError`, which
`launch_instance` converts to the no-target value "0". -/
theorem c10_memory_target (s : String) :
    (∀ ds suf : List Char, ∀ sh : Nat,
      s.toList = ds ++ suf → ds ≠ [] → ds.all Char.isDigit = true →
      (suf.map Char.toLower, sh) ∈ suffixTable →
      memory_string_to_pages s = some (max 1 ((digitsVal ds <<< sh) >>> 12))) ∧
    (∀ p, memory_string_to_pages s = some p →
      ∃ ds suf : List Char, ∃ sh : Nat,
        s.toList = ds ++ suf ∧ ds ≠ [] ∧ ds.all Char.isDigit = true ∧
        (suf.map Char.toLower, sh) ∈ suffixTable ∧
        p = max 1 ((digitsVal ds <<< sh) >>> 12)) ∧
    (∀ p, memory_string_to_pages s = some p → 1 ≤ p) ∧
    (memory_string_to_pages s = none → compute_launch_target (some s) = "0") := by
  refine ⟨?_, ?_, ?_, ?_⟩
  · intro ds suf sh hsplit hne hdig hmem
    unfold memory_string_to_pages
    rw [hsplit, List.map_append, map_toLower_digits ds hdig,
        memMatch_append ds (suf.map Char.toLower) sh hne hdig hmem]
    rfl
  · intro p hp
    unfold memory_string_to_pages at hp
    cases hm : memMatch (s.toList.map Char.toLower) with
    | none => rw [hm] at hp; exact Option.noConfusion hp
    | some r =>
      rw [hm] at hp
      have hp2 : max 1 ((r.1 <<< r.2) >>> 12) = p := Option.some_inj.mp hp
      unfold memMatch at hm
      cases h1 : tryPattern (s.toList.map Char.toLower) ['t', 'b'] 40 with
      | some r1 =>
        rw [h1] at hm
        simp only [Option.some_orElse, Option.some_inj] at hm
        subst hm
        obtain ⟨ds, suf, hsplit, hne, hdig, hsuf, hr⟩ := sound_of_fired s _ _ _ h1
        refine ⟨ds, suf, 40, hsplit, hne, hdig, ?_, ?_⟩
        · rw [hsuf]; decide
        · rw [← hp2, hr]
      | none =>
        rw [h1, Option.none_orElse] at hm
        cases h2 : tryPattern (s.toList.map Char.toLower) ['g', 'b'] 30 with
        | some r1 =>
          rw [h2] at hm
          simp only [Option.some_orElse, Option.some_inj] at hm
          subst hm
          obtain ⟨ds, suf, hsplit, hne, hdig, hsuf, hr⟩ := sound_of_fired s _ _ _ h2
          refine ⟨ds, suf, 30, hsplit, hne, hdig, ?_, ?_⟩
          · rw [hsuf]; decide
          · rw [← hp2, hr]
        | none =>
          rw [h2, Option.none_orElse] at hm
          cases h3 : tryPattern (s.toList.map Char.toLower) ['m', 'b'] 20 with
          | some r1 =>
            rw [h3] at hm
            simp only [Option.some_orElse, Option.some_inj] at hm
            subst hm
            obtain ⟨ds, suf, hsplit, hne, hdig, hsuf, hr⟩ := sound_of_fired s _ _ _ h3
            refine ⟨ds, suf, 20, hsplit, hne, hdig, ?_, ?_⟩
            · rw [hsuf]; decide
            · rw [← hp2, hr]
          | none =>
            rw [h3, Option.none_orElse] at hm
            cases h4 : tryPattern (s.toList.map Char.toLower) ['k', 'b'] 10 with
            | some r1 =>
              rw [h4] at hm
              simp only [Option.some_orElse, Option.some_inj] at hm
              subst hm
              obtain ⟨ds, suf, hsplit, hne, hdig, hsuf, hr⟩ := sound_of_fired s _ _ _ h4
              refine ⟨ds, suf, 10, hsplit, hne, hdig, ?_, ?_⟩
              · rw [hsuf]; decide
              · rw [← hp2, hr]
            | none =>
              rw [h4, Option.none_orElse] at hm
              cases h5 : tryPattern (s.toList.map Char.toLower) ['b'] 0 with
              | some r1 =>
                rw [h5] at hm
                simp only [Option.some_orElse, Option.some_inj] at hm
                subst hm
                obtain ⟨ds, suf, hsplit, hne, hdig, hsuf, hr⟩ := sound_of_fired s _ _ _ h5
                refine ⟨ds, suf, 0, hsplit, hne, hdig, ?_, ?_⟩
                · rw [hsuf]; decide
                · rw [← hp2, hr]
              | none =>
                rw [h5, Option.none_orElse] at hm
                obtain ⟨ds, suf, hsplit, hne, hdig, hsuf, hr⟩ := sound_of_fired s _ _ _ hm
                refine ⟨ds, suf, 0, hsplit, hne, hdig, ?_, ?_⟩
                · rw [hsuf]; decide
                · rw [← hp2, hr]
  · intro p hp
    unfold memory_string_to_pages at hp
    cases hm : memMatch (s.toList.map Char.toLower) with
    | none => rw [hm] at hp; exact Option.noConfusion hp
    | some r =>
      rw [hm] at hp
      have hp2 : max 1 ((r.1 <<< r.2) >>> 12) = p := Option.some_inj.mp hp
      rw [← hp2]
      exact le_max_left 1 _
  · intro hnone
    simp only [compute_launch_target, Option.getD_some]
    by_cases h0 : (s != "0") = true
    · rw [if_pos h0, hnone]
    · rw [if_neg h0]

/-- C10 witness: "512MB" parses to 131072 pages; an unparsable target is
converted to "0" by the launch prologue. -/
theorem c10_memory_target_witness :
    memory_string_to_pages "512MB" = some 131072 ∧
    compute_launch_target (some "junk") = "0" := by
  constructor
  · have h := (c10_memory_target "512MB").1 ['5', '1', '2'] ['M', 'B'] 20
      rfl (by decide) (by decide) (by decide)
    rw [h]
    rfl
  · exact (c10_memory_target "junk").2.2.2 rfl
